import Mathlib

/-!
Shallow embedding of the BeReal export processor core
(`src/app/lib/bereal-browser-processor.ts`).

Conventions used throughout this development:

* JavaScript numbers that hold integral values (epoch milliseconds, byte
  values, counters) are modelled as `Int` or `Nat`.
* Byte buffers (`Uint8Array`) are modelled as `List Nat`, each element the
  value of one byte.
* Host capabilities that the source consumes but does not implement
  (`Intl.DateTimeFormat` civil-field formatting, the zone-database validity
  check, coordinate→zone lookup `tz-lookup`, the zip reader, the canvas
  decode/convert/combine raster capability, and the `piexifjs` EXIF
  serializer) are abstracted as explicit environment functions, mirroring
  spec §6 "External interfaces".
* Fallible code (`throw` in TypeScript) is modelled with `Except String`.
* `Date.UTC` (reinterpreting civil fields as a UTC timestamp) and the
  `getUTC*` accessors are modelled with the standard proleptic-Gregorian
  civil-day conversion on `Int`, which is what ECMA-262 specifies for
  in-range fields.
-/

namespace BeReal

/-- Decimal digits, least-significant digit first, with explicit fuel
(structural recursion, so that it evaluates by kernel reduction; the fuel
`n` supplied by `natDigitsRev` always suffices, since `n / 10 < n`). -/
def natDigitsRevFuel : Nat → Nat → List Nat
  | 0, n => [n % 10]
  | fuel + 1, n => if n < 10 then [n] else n % 10 :: natDigitsRevFuel fuel (n / 10)

/-- Decimal digits of a natural number, least-significant digit first. -/
def natDigitsRev (n : Nat) : List Nat := natDigitsRevFuel n n

/-- The decimal digit `d` (`d < 10`) as an ASCII character. -/
def digitChar (d : Nat) : Char := Char.ofNat (48 + d)

/-- Model of JavaScript `String(n)` for a nonnegative integral number:
its decimal representation. -/
def natToString (n : Nat) : String := ⟨(natDigitsRev n).reverse.map digitChar⟩

/-- Value of a least-significant-first digit list. -/
def digitsRevVal : List Nat → Nat
  | [] => 0
  | d :: ds => d + 10 * digitsRevVal ds

theorem digitsRevVal_natDigitsRevFuel :
    ∀ (fuel n : Nat), n ≤ fuel → digitsRevVal (natDigitsRevFuel fuel n) = n := by
  intro fuel
  induction fuel with
  | zero =>
    intro n h
    have hn : n = 0 := by omega
    subst hn
    simp [natDigitsRevFuel, digitsRevVal]
  | succ f ih =>
    intro n h
    simp only [natDigitsRevFuel]
    by_cases h10 : n < 10
    · simp [h10, digitsRevVal]
    · have hd : n / 10 < n := Nat.div_lt_self (by omega) (by omega)
      simp only [h10, if_false, digitsRevVal, ih (n / 10) (by omega)]
      omega

theorem digitsRevVal_natDigitsRev (n : Nat) : digitsRevVal (natDigitsRev n) = n :=
  digitsRevVal_natDigitsRevFuel n n (Nat.le_refl n)

theorem natDigitsRevFuel_lt_ten :
    ∀ (fuel n : Nat), ∀ d ∈ natDigitsRevFuel fuel n, d < 10 := by
  intro fuel
  induction fuel with
  | zero =>
    intro n d hd
    simp only [natDigitsRevFuel, List.mem_singleton] at hd
    omega
  | succ f ih =>
    intro n d hd
    simp only [natDigitsRevFuel] at hd
    by_cases h10 : n < 10
    · simp [h10] at hd
      omega
    · simp only [h10, if_false, List.mem_cons] at hd
      rcases hd with h1 | h2
      · omega
      · exact ih (n / 10) d h2

theorem natDigitsRev_lt_ten (n : Nat) : ∀ d ∈ natDigitsRev n, d < 10 :=
  natDigitsRevFuel_lt_ten n n

theorem digitChar_inj_lt {d e : Nat} (hd : d < 10) (he : e < 10)
    (h : digitChar d = digitChar e) : d = e := by
  interval_cases d <;> interval_cases e <;> simp_all [digitChar]

theorem map_digitChar_inj : ∀ {l₁ l₂ : List Nat}, (∀ d ∈ l₁, d < 10) → (∀ d ∈ l₂, d < 10) →
    l₁.map digitChar = l₂.map digitChar → l₁ = l₂
  | [], [], _, _, _ => rfl
  | [], _ :: _, _, _, h => by simp at h
  | _ :: _, [], _, _, h => by simp at h
  | a :: as, b :: bs, h₁, h₂, h => by
    simp only [List.map_cons, List.cons.injEq] at h
    have ha : a = b := digitChar_inj_lt (h₁ a (by simp)) (h₂ b (by simp)) h.1
    have htail : as = bs :=
      map_digitChar_inj (fun d hd => h₁ d (by simp [hd])) (fun d hd => h₂ d (by simp [hd])) h.2
    rw [ha, htail]

theorem natToString_inj {m n : Nat} (h : natToString m = natToString n) : m = n := by
  have hdata : (natDigitsRev m).reverse.map digitChar
      = (natDigitsRev n).reverse.map digitChar := congrArg String.data h
  have hrev : (natDigitsRev m).map digitChar = (natDigitsRev n).map digitChar := by
    have h2 := congrArg List.reverse hdata
    simpa [← List.map_reverse] using h2
  have hdig : natDigitsRev m = natDigitsRev n :=
    map_digitChar_inj (natDigitsRev_lt_ten m) (natDigitsRev_lt_ten n) hrev
  calc m = digitsRevVal (natDigitsRev m) := (digitsRevVal_natDigitsRev m).symm
    _ = digitsRevVal (natDigitsRev n) := by rw [hdig]
    _ = n := digitsRevVal_natDigitsRev n

/-- Model of JavaScript `String(i)` for an integral number. -/
def intToString (i : Int) : String :=
  if i < 0 then "-" ++ natToString i.natAbs else natToString i.toNat

/-- Source `pad`: template-string rendering of a number followed by
`.padStart(2, "0")`. -/
def pad (i : Int) : String :=
  let s := intToString i
  if s.length < 2 then "0" ++ s else s

/-- JavaScript `<` on strings: lexicographic comparison of code units
(all strings compared by the source are ASCII, where code units and code
points coincide). -/
def listLtB : List Char → List Char → Bool
  | [], [] => false
  | [], _ :: _ => true
  | _ :: _, [] => false
  | a :: as, b :: bs =>
    if a.toNat < b.toNat then true
    else if b.toNat < a.toNat then false
    else listLtB as bs

/-- JavaScript string comparison `a < b`. -/
def strLtB (a b : String) : Bool := listLtB a.data b.data

/-- Civil date-time fields as produced by the host `Intl.DateTimeFormat`
`formatToParts` (the source's `en-CA`/`iso8601`/`h23` formatter). -/
structure DateParts where
  year : Nat
  month : Nat
  day : Nat
  hour : Nat
  minute : Nat
  second : Nat
deriving DecidableEq, Repr

/-- Host time-zone capabilities consumed by the source (spec §6):
`fields` is the `Intl.DateTimeFormat` civil-field formatting of an epoch
instant (milliseconds) in a named zone; `valid` is the zone-database
validity check behind the source's `validateTimeZone`. -/
structure TZEnv where
  fields : Int → String → DateParts
  valid : String → Bool

/-- Days since the Unix epoch of a proleptic-Gregorian civil date
(the standard `days_from_civil` computation, which is what ECMA-262
`Date.UTC` performs for in-range fields). -/
def daysFromCivil (y m d : Int) : Int :=
  let yAdj := if m ≤ 2 then y - 1 else y
  let era := yAdj / 400
  let yoe := yAdj - era * 400
  let mp := if m ≤ 2 then m + 9 else m - 3
  let doy := (153 * mp + 2) / 5 + d - 1
  let doe := yoe * 365 + yoe / 4 - yoe / 100 + doy
  era * 146097 + doe - 719468

/-- Model of `Date.UTC(year, month - 1, day, hour, minute, second)`:
reinterpret civil fields as a UTC timestamp in epoch milliseconds. -/
def utcTimestampOfCivil (p : DateParts) : Int :=
  daysFromCivil p.year p.month p.day * 86400000
    + (p.hour : Int) * 3600000 + (p.minute : Int) * 60000 + (p.second : Int) * 1000

/-- Civil date of a day count since the Unix epoch (the standard
`civil_from_days` computation, modelling the host `getUTC*` accessors). -/
def civilFromDays (z0 : Int) : Int × Int × Int :=
  let z := z0 + 719468
  let era := z / 146097
  let doe := z - era * 146097
  let yoe := (doe - doe / 1460 + doe / 36524 - doe / 146096) / 365
  let y := yoe + era * 400
  let doy := doe - (365 * yoe + yoe / 4 - yoe / 100)
  let mp := (5 * doy + 2) / 153
  let d := doy - (153 * mp + 2) / 5 + 1
  let m := if mp < 10 then mp + 3 else mp - 9
  (if m ≤ 2 then y + 1 else y, m, d)

/-- Civil UTC date of an epoch instant in milliseconds. -/
def utcCivil (t : Int) : Int × Int × Int := civilFromDays (t / 86400000)

/-- Source `formatDateUtc`: `YYYY-MM-DD` of the instant's UTC civil date. -/
def formatDateUtc (t : Int) : String :=
  let c := utcCivil t
  intToString c.1 ++ "-" ++ pad c.2.1 ++ "-" ++ pad c.2.2

/-- Source `formatTimestampUtc`: `YYYY-MM-DDThh-mm-ss` of the instant's
UTC civil fields. -/
def formatTimestampUtc (t : Int) : String :=
  let tod := t % 86400000
  formatDateUtc t ++ "T" ++ pad (tod / 3600000) ++ "-"
    ++ pad (tod % 3600000 / 60000) ++ "-"
    ++ pad (tod % 60000 / 1000)

/-- Source `ResolvedDateTime`. -/
structure ResolvedDateTime where
  year : Nat
  month : Nat
  day : Nat
  hour : Nat
  minute : Nat
  second : Nat
  offsetMinutes : Int
deriving DecidableEq, Repr

/-- Source `resolveDateTimeInTimeZone`: format the instant's civil fields
in the zone (normalising a formatter hour of 24 to 0), reinterpret those
fields as UTC via `Date.UTC`, and take the rounded difference in minutes
as the zone offset.  `Math.round(x)` is `⌊x + 1/2⌋`, so for the exact
rational `diff / 60000` it is `⌊(diff + 30000) / 60000⌋`, a floor division
that `Int.ediv` provides for the positive divisor. -/
def resolveDateTimeInTimeZone (env : TZEnv) (t : Int) (z : String) : ResolvedDateTime :=
  let p := env.fields t z
  let hour := if p.hour = 24 then 0 else p.hour
  let projected := utcTimestampOfCivil ⟨p.year, p.month, p.day, hour, p.minute, p.second⟩
  { year := p.year, month := p.month, day := p.day, hour := hour,
    minute := p.minute, second := p.second,
    offsetMinutes := (projected - t + 30000) / 60000 }

/-- Source `formatDateInTimeZone`: `YYYY-MM-DD` local civil date. -/
def formatDateInTimeZone (env : TZEnv) (t : Int) (z : String) : String :=
  let r := resolveDateTimeInTimeZone env t z
  intToString r.year ++ "-" ++ pad r.month ++ "-" ++ pad r.day

/-- Source `formatTimestampInTimeZone`: filesystem-safe local timestamp
`YYYY-MM-DDThh-mm-ss`. -/
def formatTimestampInTimeZone (env : TZEnv) (t : Int) (z : String) : String :=
  let r := resolveDateTimeInTimeZone env t z
  intToString r.year ++ "-" ++ pad r.month ++ "-" ++ pad r.day ++ "T"
    ++ pad r.hour ++ "-" ++ pad r.minute ++ "-" ++ pad r.second

/-- Source `formatIptcDateInTimeZone`: `YYYYMMDD` local civil date. -/
def formatIptcDateInTimeZone (env : TZEnv) (t : Int) (z : String) : String :=
  let r := resolveDateTimeInTimeZone env t z
  intToString r.year ++ pad r.month ++ pad r.day

/-- Source `formatUtcOffset`: `±hhmm` rendering of an offset in minutes. -/
def formatUtcOffset (offsetMinutes : Int) : String :=
  let sign := if 0 ≤ offsetMinutes then "+" else "-"
  let absoluteMinutes := offsetMinutes.natAbs
  sign ++ pad (absoluteMinutes / 60) ++ pad (absoluteMinutes % 60)

/-- Source `formatIptcTimeInTimeZone`: `hhmmss±hhmm` local civil time with
the zone's per-instant UTC offset. -/
def formatIptcTimeInTimeZone (env : TZEnv) (t : Int) (z : String) : String :=
  let r := resolveDateTimeInTimeZone env t z
  pad r.hour ++ pad r.minute ++ pad r.second ++ formatUtcOffset r.offsetMinutes

/-- JavaScript `String.prototype.trim` as it acts on the ASCII
configuration strings the source trims (whitespace at both ends removed).
Defined on the character list so that it evaluates by kernel reduction. -/
def jsTrim (s : String) : String :=
  ⟨((s.data.dropWhile Char.isWhitespace).reverse.dropWhile Char.isWhitespace).reverse⟩

/-- JavaScript truthiness of a `string | null` value: `null` and the empty
string are falsy. -/
def jsTruthyOpt : Option String → Bool
  | none => false
  | some s => s ≠ ""

/-- Source `TimezoneOverrideSpan`: one user-configured override row. -/
structure TimezoneOverrideSpan where
  startDate : String
  endDate : String
  timeZone : String
deriving DecidableEq, Repr

/-- Source `NormalizedTimezoneOverrideSpan`: a validated override row with
open-ended bounds represented as `null`. -/
structure NormalizedTimezoneOverrideSpan where
  startDate : Option String
  endDate : Option String
  timeZone : String
deriving DecidableEq, Repr

/-- ASCII decimal digit test (`\d` of the source's regular expression). -/
def isAsciiDigit (c : Char) : Bool := 48 ≤ c.toNat && c.toNat ≤ 57

/-- Source `isIsoDateString`: the regular expression `^\d{4}-\d{2}-\d{2}$`. -/
def isIsoDateString (s : String) : Bool :=
  match s.data with
  | [y1, y2, y3, y4, h1, m1, m2, h2, d1, d2] =>
    isAsciiDigit y1 && isAsciiDigit y2 && isAsciiDigit y3 && isAsciiDigit y4
      && h1 = '-' && isAsciiDigit m1 && isAsciiDigit m2
      && h2 = '-' && isAsciiDigit d1 && isAsciiDigit d2
  | _ => false

/-- The reason one override row is rejected. -/
inductive RowError where
  | missingTimeZone
  | invalidTimeZone (timeZone : String)
  | startDateInvalid
  | endDateInvalid
  | startAfterEnd
deriving DecidableEq, Repr

/-- The error text the source's `throw`s build for a rejected row. -/
def rowErrorMessage (rowLabel : String) : RowError → String
  | .missingTimeZone => rowLabel ++ " is missing a timezone."
  | .invalidTimeZone timeZone => rowLabel ++ " has an invalid timezone \"" ++ timeZone
      ++ "\". Please choose a valid IANA timezone."
  | .startDateInvalid => rowLabel ++ " start date is invalid."
  | .endDateInvalid => rowLabel ++ " end date is invalid."
  | .startAfterEnd => rowLabel ++ " start date must be before or equal to the end date."

/-- Validation of one override row (the body of the source's
`normalizeTimezoneOverrides` loop): `ok none` is the source's `continue`
for an all-blank row, `ok (some _)` its `push`, `error` its `throw` with
the failure reason (rendered by `rowErrorMessage`). -/
def checkOverrideRow (env : TZEnv) (o : TimezoneOverrideSpan) :
    Except RowError (Option NormalizedTimezoneOverrideSpan) :=
  let startDate := jsTrim o.startDate
  let endDate := jsTrim o.endDate
  let timeZone := jsTrim o.timeZone
  if startDate = "" ∧ endDate = "" ∧ timeZone = "" then
    .ok none
  else if timeZone = "" then
    .error .missingTimeZone
  else if ¬ env.valid timeZone then
    .error (.invalidTimeZone timeZone)
  else if startDate ≠ "" ∧ ¬ isIsoDateString startDate then
    .error .startDateInvalid
  else if endDate ≠ "" ∧ ¬ isIsoDateString endDate then
    .error .endDateInvalid
  else if startDate ≠ "" ∧ endDate ≠ "" ∧ strLtB endDate startDate then
    .error .startAfterEnd
  else
    .ok (some { startDate := if startDate = "" then none else some startDate,
                endDate := if endDate = "" then none else some endDate,
                timeZone := timeZone })

/-- One override row with the source's row label applied to any error. -/
def normalizeOverrideRow (env : TZEnv) (rowLabel : String) (o : TimezoneOverrideSpan) :
    Except String (Option NormalizedTimezoneOverrideSpan) :=
  match checkOverrideRow env o with
  | .ok v => .ok v
  | .error e => .error (rowErrorMessage rowLabel e)

/-- Source `normalizeTimezoneOverrides`, starting from row index `index`
(the source iterates with an explicit index used only in row labels). -/
def normalizeTimezoneOverridesFrom (env : TZEnv) (index : Nat) :
    List TimezoneOverrideSpan → Except String (List NormalizedTimezoneOverrideSpan)
  | [] => .ok []
  | o :: rest =>
    match normalizeOverrideRow env ("Timezone span " ++ natToString (index + 1)) o with
    | .error e => .error e
    | .ok none => normalizeTimezoneOverridesFrom env (index + 1) rest
    | .ok (some normalizedSpan) =>
      match normalizeTimezoneOverridesFrom env (index + 1) rest with
      | .error e => .error e
      | .ok tail => .ok (normalizedSpan :: tail)

/-- Source `normalizeTimezoneOverrides`. -/
def normalizeTimezoneOverrides (env : TZEnv) (overrides : List TimezoneOverrideSpan) :
    Except String (List NormalizedTimezoneOverrideSpan) :=
  normalizeTimezoneOverridesFrom env 0 overrides

/-- Whether an override span's inclusive date window contains the instant,
the instant's calendar date being formatted in the span's own zone
(the two `continue` guards of the source's `findTimezoneFromOverrides`). -/
def overrideContains (env : TZEnv) (takenAt : Int)
    (o : NormalizedTimezoneOverrideSpan) : Bool :=
  let localDateInOverrideZone := formatDateInTimeZone env takenAt o.timeZone
  !(jsTruthyOpt o.startDate && strLtB localDateInOverrideZone (o.startDate.getD ""))
    && !(jsTruthyOpt o.endDate && strLtB (o.endDate.getD "") localDateInOverrideZone)

/-- Loop of the source `findTimezoneFromOverrides`: the accumulator is the
mutable `matchedTimeZone`, overwritten by every later matching row. -/
def findTimezoneFromOverridesGo (env : TZEnv) (takenAt : Int) (acc : Option String) :
    List NormalizedTimezoneOverrideSpan → Option String
  | [] => acc
  | o :: rest =>
    findTimezoneFromOverridesGo env takenAt
      (if overrideContains env takenAt o then some o.timeZone else acc) rest

/-- Source `findTimezoneFromOverrides`. -/
def findTimezoneFromOverrides (env : TZEnv) (takenAt : Int)
    (overrides : List NormalizedTimezoneOverrideSpan) : Option String :=
  findTimezoneFromOverridesGo env takenAt none overrides

/-- Source `normalizeFallbackTimezone`. -/
def normalizeFallbackTimezone (env : TZEnv) (fallbackTimezone : String) :
    Except String (Option String) :=
  let trimmed := jsTrim fallbackTimezone
  if trimmed = "" then .ok none
  else if env.valid trimmed then .ok (some trimmed)
  else .error ("Fallback timezone \"" ++ trimmed
    ++ "\" is not valid. Please use an IANA timezone like Europe/Berlin or America/New_York.")

/-- Source `resolvePostTimezone`.  The coordinate→zone lookup (`tz-lookup`)
is the external capability `tzLookup`, returning the zone identifier or the
thrown error's message; `locRender` renders the coordinate pair for the
error text (the coordinate type `Coord` is abstract: the source's finite
doubles only flow into the lookup and into messages).  The `warnings` list
models the caller's mutable warnings array. -/
def resolvePostTimezone {Coord : Type} (env : TZEnv)
    (tzLookup : Coord → Except String String) (locRender : Coord → String)
    (takenAt : Int) (location : Option Coord)
    (timezoneOverrides : List NormalizedTimezoneOverrideSpan)
    (fallbackTimezone : Option String) (warnings : List String) :
    Except String (String × List String) :=
  match location with
  | none =>
    let overrideTimezone := findTimezoneFromOverrides env takenAt timezoneOverrides
    if jsTruthyOpt overrideTimezone then .ok (overrideTimezone.getD "", warnings)
    else if jsTruthyOpt fallbackTimezone then .ok (fallbackTimezone.getD "", warnings)
    else
      .error ("A photo does not include location data and did not match any custom "
        ++ "timezone timespan. Please add a matching timespan via Set Timezones or "
        ++ "choose a fallback timezone in Step 2.")
  | some loc =>
    let recover : String → Except String (String × List String) := fun reason =>
      if jsTruthyOpt fallbackTimezone then
        .ok (fallbackTimezone.getD "",
          warnings ++ ["Used fallback timezone " ++ fallbackTimezone.getD ""
            ++ " for one photo at " ++ formatTimestampUtc takenAt
            ++ " because timezone lookup from coordinates failed."])
      else
        .error ("Could not determine a timezone from photo coordinates ("
          ++ locRender loc ++ ") and no fallback timezone is set. " ++ reason)
    match tzLookup loc with
    | .ok tz =>
      if env.valid tz then .ok (tz, warnings)
      else recover ("Unsupported timezone \"" ++ tz ++ "\" returned by location lookup.")
    | .error e => recover e

/-- First step of source `normalizePath`: `replace(/\\/g, "/")`. -/
def replaceBackslashes (l : List Char) : List Char :=
  l.map fun c => if c = '\\' then '/' else c

/-- Second step of source `normalizePath`: `replace(/\/{2,}/g, "/")`,
collapsing every run of slashes to a single slash.  Written with explicit
fuel (the list length always suffices, since `dropWhile` never lengthens
its input) so that it evaluates by kernel reduction. -/
def collapseSlashesFuel : Nat → List Char → List Char
  | 0, l => l
  | _ + 1, [] => []
  | fuel + 1, c :: rest =>
    if c = '/' then '/' :: collapseSlashesFuel fuel (rest.dropWhile fun x => x = '/')
    else c :: collapseSlashesFuel fuel rest

/-- Second step of source `normalizePath`. -/
def collapseSlashes (l : List Char) : List Char := collapseSlashesFuel l.length l

/-- Third step of source `normalizePath`: `replace(/^\.\//, "")`. -/
def stripDotSlash : List Char → List Char
  | '.' :: '/' :: rest => rest
  | l => l

/-- Fourth step of source `normalizePath`: `replace(/^\/+/, "")`. -/
def stripLeadingSlashes (l : List Char) : List Char := l.dropWhile fun c => c = '/'

/-- Source `normalizePath`. -/
def normalizePath (s : String) : String :=
  ⟨stripLeadingSlashes (stripDotSlash (collapseSlashes (replaceBackslashes s.data)))⟩

/-- The `replace(/\/+$/, "")` step of source `basename`. -/
def stripTrailingSlashes (l : List Char) : List Char :=
  (l.reverse.dropWhile fun c => c = '/').reverse

/-- Source `basename`: last `/`-separated component of the normalized path. -/
def basename (s : String) : String :=
  let normalized := stripTrailingSlashes (normalizePath s).data
  ⟨(normalized.splitOn '/').getLastD normalized⟩

/-- JavaScript `toLowerCase` as it acts on the ASCII archive paths the
source compares. -/
def toLowerStr (s : String) : String := ⟨s.data.map Char.toLower⟩

/-- JavaScript `String.prototype.endsWith`. -/
def strEndsWith (s suffixStr : String) : Bool := suffixStr.data.isSuffixOf s.data

/-- JavaScript `String.prototype.startsWith`. -/
def strStartsWith (s prefixStr : String) : Bool := prefixStr.data.isPrefixOf s.data

/-- One entry of the zip listing (`zip.files` values): its raw path and
directory flag, provided by the external archive reader. -/
structure ZipEntry where
  path : String
  dir : Bool
deriving DecidableEq, Repr

/-- The normalized paths of all entries (source `allPaths`). -/
def allPathsOf (entries : List ZipEntry) : List String :=
  entries.map fun e => normalizePath e.path

/-- Source `postsCandidates`: normalized paths of non-directory entries
whose lowercased path ends with `posts.json`, in listing order. -/
def postsCandidates (entries : List ZipEntry) : List String :=
  ((entries.map fun e => ZipEntry.mk (normalizePath e.path) e.dir).filter
    fun e => !e.dir && strEndsWith (toLowerStr e.path) "posts.json").map ZipEntry.path

/-- The `candidate.slice(0, candidate.length - "posts.json".length)` root
computed for a manifest candidate. -/
def candidateRoot (c : String) : String := ⟨c.data.take (c.length - 10)⟩

/-- Whether some entry lives under `<root>Photos/` for the candidate's
root (the source's sibling-`Photos` check, lowercased on both sides). -/
def hasSiblingPhotos (allPaths : List String) (c : String) : Bool :=
  let photosRoot := toLowerStr (candidateRoot c ++ "Photos/")
  allPaths.any fun v => strStartsWith (toLowerStr v) photosRoot

/-- Whether `needle` occurs as a contiguous run inside the second list. -/
def listIsInfix (needle : List Char) : List Char → Bool
  | [] => needle.isEmpty
  | c :: rest => needle.isPrefixOf (c :: rest) || listIsInfix needle rest

/-- The source's `/(^|\/)photos\//i` test on one path. -/
def pathHasPhotosDir (v : String) : Bool :=
  strStartsWith (toLowerStr v) "photos/" || listIsInfix "/photos/".data (toLowerStr v).data

/-- First element of minimal length, in listing order: the `[0]` of the
source's stable `sort((left, right) => left.length - right.length)` over
the candidates (a stable ascending sort puts the first-listed shortest
element at index 0). -/
def shortestCandidate : List String → Option String
  | [] => none
  | x :: xs =>
    match shortestCandidate xs with
    | none => some x
    | some y => if x.length ≤ y.length then some x else some y

/-- Source `findExportRootPrefix`. -/
def findExportRoot (entries : List ZipEntry) : Option String :=
  let allPaths := allPathsOf entries
  let cands := postsCandidates entries
  match cands.find? (fun c => hasSiblingPhotos allPaths c) with
  | some c => some (candidateRoot c)
  | none =>
    let hasPhotosSomewhere := allPaths.any pathHasPhotosDir
    if !hasPhotosSomewhere || cands.isEmpty then none
    else (shortestCandidate cands).map candidateRoot

/-- Index of the last `.` in a string (`String.prototype.lastIndexOf`),
`none` for the source's `-1`. -/
def lastDotIndex (s : String) : Option Nat :=
  (s.data.reverse.findIdx? fun c => c = '.').map fun j => s.length - 1 - j

/-- The stem (`candidate.slice(0, dotIndex)`) of source `getUniqueFilename`. -/
def stemOf (candidate : String) : String :=
  match lastDotIndex candidate with
  | none => candidate
  | some i => ⟨candidate.data.take i⟩

/-- The extension (`candidate.slice(dotIndex)`, dot included) of source
`getUniqueFilename`. -/
def extOf (candidate : String) : String :=
  match lastDotIndex candidate with
  | none => ""
  | some i => ⟨candidate.data.drop i⟩

/-- The template string of the collision loop. -/
def suffixName (stem ext : String) (counter : Nat) : String :=
  stem ++ "_" ++ natToString counter ++ ext

/-- The `while (used.has(...)) counter += 1` loop of source
`getUniqueFilename`, with explicit fuel.  The fuel `used.length + 1`
supplied below always suffices (pigeonhole, proven later), making this
extensionally the source's unbounded loop. -/
def searchCounter (stem ext : String) (used : List String) : Nat → Nat → Nat
  | counter, 0 => counter
  | counter, fuel + 1 =>
    if suffixName stem ext counter ∈ used then searchCounter stem ext used (counter + 1) fuel
    else counter

/-- Source `getUniqueFilename`.  The mutable `Set` of used names is
modelled as a list with `Set.add` as cons. -/
def getUniqueFilename (candidate : String) (used : List String) : String × List String :=
  if candidate ∈ used then
    let stem := stemOf candidate
    let ext := extOf candidate
    let uniqueName := suffixName stem ext (searchCounter stem ext used 1 (used.length + 1))
    (uniqueName, uniqueName :: used)
  else (candidate, candidate :: used)

/-- UTF-8 encoding of one character (the `TextEncoder` of the source). -/
def utf8EncodeChar (c : Char) : List Nat :=
  let n := c.toNat
  if n < 0x80 then [n]
  else if n < 0x800 then [0xC0 + n / 64, 0x80 + n % 64]
  else if n < 0x10000 then [0xE0 + n / 4096, 0x80 + n / 64 % 64, 0x80 + n % 64]
  else [0xF0 + n / 262144, 0x80 + n / 4096 % 64, 0x80 + n / 64 % 64, 0x80 + n % 64]

/-- `textEncoder.encode`: UTF-8 bytes of a string. -/
def utf8Bytes (s : String) : List Nat := s.data.flatMap utf8EncodeChar

/-- Source `buildIptcDataset`.  The dataset id is a `Nat`, so the
source's `dataset < 0` guard cannot fire. -/
def buildIptcDataset (dataset : Nat) (value : List Nat) : Except String (List Nat) :=
  if dataset > 255 then .error "IPTC dataset id must fit in one byte."
  else if value.length > 0xffff then .error "IPTC dataset value is too large."
  else .ok ([0x1c, 0x02, dataset, (value.length >>> 8) &&& 0xff, value.length &&& 0xff] ++ value)

/-- Source `buildIptcPayload`. -/
def buildIptcPayload (env : TZEnv) (takenAt : Int) (timeZone : String)
    (caption : Option String) : Except String (List Nat) := do
  let d90 ← buildIptcDataset 90 [0x1b, 0x25, 0x47]
  let d55 ← buildIptcDataset 55 (utf8Bytes (formatIptcDateInTimeZone env takenAt timeZone))
  let d60 ← buildIptcDataset 60 (utf8Bytes (formatIptcTimeInTimeZone env takenAt timeZone))
  let trimmedCaption := jsTrim (caption.getD "")
  if trimmedCaption ≠ "" then
    let d120 ← buildIptcDataset 120 (utf8Bytes trimmedCaption)
    return d90 ++ d55 ++ d60 ++ d120
  else
    return d90 ++ d55 ++ d60

/-- Source `buildIptcApp13Segment`. -/
def buildIptcApp13Segment (iptcPayload : List Nat) : Except String (List Nat) :=
  let photoshopHeader := utf8Bytes "Photoshop 3.0\u0000"
  let resourceSignature := utf8Bytes "8BIM"
  let resourceId : List Nat := [0x04, 0x04]
  let resourceName : List Nat := [0x00, 0x00]
  let resourceSize := iptcPayload.length
  let resourceSizeBytes : List Nat :=
    [(resourceSize >>> 24) &&& 0xff, (resourceSize >>> 16) &&& 0xff,
     (resourceSize >>> 8) &&& 0xff, resourceSize &&& 0xff]
  let payloadPadding : List Nat := if resourceSize % 2 = 0 then [] else [0x00]
  let app13Payload := photoshopHeader ++ resourceSignature ++ resourceId ++ resourceName
    ++ resourceSizeBytes ++ iptcPayload ++ payloadPadding
  let segmentLength := app13Payload.length + 2
  if segmentLength > 0xffff then .error "IPTC metadata is too large for a JPEG APP13 segment."
  else .ok ([0xff, 0xed, (segmentLength >>> 8) &&& 0xff, segmentLength &&& 0xff] ++ app13Payload)

/-- The inner `while` of source `findJpegMetadataInsertOffset`: advance
`markerOffset` past `0xFF` fill bytes. -/
def scanFill (d : List Nat) (m : Nat) : Nat :=
  if h : m + 1 < d.length ∧ d.getD (m + 1) 0 = 0xFF then scanFill d (m + 1) else m
termination_by d.length - m
decreasing_by
  omega

theorem scanFill_ge (d : List Nat) (m : Nat) : m ≤ scanFill d m := by
  rw [scanFill]
  split
  · exact Nat.le_trans (by omega) (scanFill_ge d (m + 1))
  · exact Nat.le_refl m
termination_by d.length - m
decreasing_by
  omega

/-- The outer `while` of source `findJpegMetadataInsertOffset`, entered at
byte offset `offset`; falling out of the loop is the source's final
`throw`. -/
def walkJpeg (d : List Nat) (offset : Nat) : Except String Nat :=
  if h1 : offset + 1 < d.length then
    if d.getD offset 0 ≠ 0xFF then .error "Malformed JPEG marker sequence."
    else
      let m := scanFill d offset
      if h2 : d.length ≤ m + 1 then .error "Could not determine JPEG metadata insertion point."
      else
        let marker := d.getD (m + 1) 0
        if marker = 0xDA ∨ marker = 0xD9 then .ok m
        else if marker = 0x01 ∨ (0xD0 ≤ marker ∧ marker ≤ 0xD7) then walkJpeg d (m + 2)
        else if h3 : d.length ≤ m + 3 then .error "Truncated JPEG segment."
        else
          let segmentLength := (d.getD (m + 2) 0) <<< 8 ||| d.getD (m + 3) 0
          if segmentLength < 2 then .error "Invalid JPEG segment length."
          else if h4 : d.length < m + 2 + segmentLength then
            .error "JPEG segment length exceeds file size."
          else walkJpeg d (m + 2 + segmentLength)
  else .error "Could not determine JPEG metadata insertion point."
termination_by d.length - offset
decreasing_by
  · have := scanFill_ge d offset
    omega
  · have := scanFill_ge d offset
    omega

/-- Source `findJpegMetadataInsertOffset`. -/
def findJpegMetadataInsertOffset (jpegData : List Nat) : Except String Nat :=
  if jpegData.length < 4 ∨ jpegData.getD 0 0 ≠ 0xFF ∨ jpegData.getD 1 0 ≠ 0xD8 then
    .error "Invalid JPEG stream."
  else walkJpeg jpegData 2

/-- Source `addIptcToJpeg`: build the APP13 segment and splice it at the
metadata insertion offset. -/
def addIptcToJpeg (env : TZEnv) (jpegData : List Nat) (takenAt : Int) (timeZone : String)
    (caption : Option String) : Except String (List Nat) := do
  let iptcPayload ← buildIptcPayload env takenAt timeZone caption
  let app13Segment ← buildIptcApp13Segment iptcPayload
  let insertOffset ← findJpegMetadataInsertOffset jpegData
  return jpegData.take insertOffset ++ app13Segment ++ jpegData.drop insertOffset

/-- The environment of external capabilities one run consumes (spec §6):
`tz` the host zone formatting/validation; `tzLookup`/`locRender` the
coordinate→zone lookup and coordinate rendering; `exifEmbed` the
`piexifjs` EXIF serialisation round-trip of source `addMetadataToJpeg`
(data-URL conversion, tag-map dump and insert), which may throw;
`findImage` the archive lookup of source `findImageObject` over the zip
indexes; `convert` the raster decode/encode of source
`convertToFormatBlob` applied to a found archive entry; `combine` the
canvas compositing of source `combineImages`. -/
structure RunEnv (Coord : Type) where
  tz : TZEnv
  tzLookup : Coord → Except String String
  locRender : Coord → String
  exifEmbed : List Nat → Int → String → Option Coord → Option String → Except String (List Nat)
  findImage : String → Option String
  convert : String → Except String (List Nat)
  combine : List Nat → List Nat → Except String (List Nat)

/-- Source `addMetadataToJpeg`: EXIF embedding (external, may throw to the
caller), then best-effort IPTC embedding whose failure is caught and
reported through the `iptcEmbedded` flag. -/
def addMetadataToJpeg {Coord : Type} (env : RunEnv Coord) (blob : List Nat) (takenAt : Int)
    (timeZone : String) (location : Option Coord) (caption : Option String) :
    Except String (List Nat × Bool) := do
  let exifBlob ← env.exifEmbed blob takenAt timeZone location caption
  match addIptcToJpeg env.tz exifBlob takenAt timeZone caption with
  | .ok metadataBlob => return (metadataBlob, true)
  | .error _ => return (exifBlob, false)

/-- Output format of one run. -/
inductive ExportFormat where
  | jpg
  | png
deriving DecidableEq, Repr

/-- Source `extension` selection. -/
def extensionOf : ExportFormat → String
  | .jpg => ".jpg"
  | .png => ".png"

/-- One parsed manifest entry with a valid `takenAt` (entries with a
missing or unparsable `takenAt` are dropped while parsing the manifest,
before the stage modelled here). -/
structure Post (Coord : Type) where
  takenAt : Int
  location : Option Coord
  caption : Option String
  primaryPath : Option String
  secondaryPath : Option String

/-- Source `ProcessorSettings`. -/
structure ProcessorSettings where
  exportFormat : ExportFormat
  createCombinedImages : Bool
  rearPhotoLarge : Bool
  sinceDate : String
  endDate : String
  fallbackTimezone : String
  timezoneOverrides : List TimezoneOverrideSpan

/-- The date filter of source `processBeRealExport` (inclusive bounds,
empty bound strings meaning "unbounded" through JS truthiness). -/
def filterPosts {Coord : Type} (sinceDate endDate : String) (posts : List (Post Coord)) :
    List (Post Coord) :=
  posts.filter fun p =>
    let takenDate := formatDateUtc p.takenAt
    !(sinceDate ≠ "" && strLtB takenDate sinceDate)
      && !(endDate ≠ "" && strLtB endDate takenDate)

/-- Source `ProcessedExportFile`: an output name and its bytes. -/
structure NamedFile where
  name : String
  bytes : List Nat
deriving DecidableEq, Repr

/-- Source `ProcessedPair`: a combine candidate. -/
structure CombineCandidate (Coord : Type) where
  primary : NamedFile
  secondary : NamedFile
  takenAt : Int
  timeZone : String
  location : Option Coord
  caption : Option String

/-- The mutable state of the per-Post loop of `processBeRealExport`. -/
structure RunState (Coord : Type) where
  processedSingles : List NamedFile
  combineCandidates : List (CombineCandidate Coord)
  singleNames : List String
  warnings : List String
  iptcEmbeddingFailed : Bool

/-- One iteration of the source's `for (const role of ["primary", "secondary"])`
loop: the whole body is one failure boundary whose errors become warnings. -/
def processRole {Coord : Type} (env : RunEnv Coord) (format : ExportFormat) (ext : String)
    (timestamp resolvedTimeZone : String) (takenAt : Int) (location : Option Coord)
    (caption : Option String) (roleName imageKey : String) (st : RunState Coord) :
    RunState Coord × Option NamedFile :=
  let attempt : Except String (List Nat × Bool) :=
    match env.convert imageKey with
    | .error e => .error e
    | .ok outputBlob =>
      match format with
      | .jpg => addMetadataToJpeg env outputBlob takenAt resolvedTimeZone location caption
      | .png => .ok (outputBlob, true)
  match attempt with
  | .error reason =>
    ({ st with warnings := st.warnings ++ ["Failed to process " ++ roleName ++ " image for "
        ++ timestamp ++ " (" ++ resolvedTimeZone ++ "): " ++ reason] }, none)
  | .ok (bytes, iptcOk) =>
    let named := getUniqueFilename (timestamp ++ "_" ++ roleName ++ ext) st.singleNames
    let outputFile : NamedFile := { name := named.1, bytes := bytes }
    ({ st with
        processedSingles := st.processedSingles ++ [outputFile],
        singleNames := named.2,
        iptcEmbeddingFailed := st.iptcEmbeddingFailed || !iptcOk }, some outputFile)

/-- Everything the per-Post loop body does after the timezone is resolved
(none of it can abort the run: every failure is caught into a warning). -/
def processPostBody {Coord : Type} (env : RunEnv Coord) (format : ExportFormat) (ext : String)
    (st : RunState Coord) (p : Post Coord) (resolvedTimeZone : String) : RunState Coord :=
  let timestamp := formatTimestampInTimeZone env.tz p.takenAt resolvedTimeZone
  let primaryNameRaw : Option String :=
    match p.primaryPath with
    | some path => if path ≠ "" then some (basename path) else none
    | none => none
  let secondaryNameRaw : Option String :=
    match p.secondaryPath with
    | some path => if path ≠ "" then some (basename path) else none
    | none => none
  if ¬ (jsTruthyOpt primaryNameRaw ∧ jsTruthyOpt secondaryNameRaw) then
    { st with warnings := st.warnings ++ ["Skipped one entry at " ++ timestamp
        ++ " because primary/secondary paths were missing."] }
  else
    match env.findImage (primaryNameRaw.getD ""), env.findImage (secondaryNameRaw.getD "") with
    | some primaryKey, some secondaryKey =>
      let step1 := processRole env format ext timestamp resolvedTimeZone p.takenAt p.location
        p.caption "primary" primaryKey st
      let step2 := processRole env format ext timestamp resolvedTimeZone p.takenAt p.location
        p.caption "secondary" secondaryKey step1.1
      match step1.2, step2.2 with
      | some primaryFile, some secondaryFile =>
        { step2.1 with combineCandidates := step2.1.combineCandidates
            ++ [⟨primaryFile, secondaryFile, p.takenAt, resolvedTimeZone, p.location, p.caption⟩] }
      | _, _ => step2.1
    | _, _ =>
      { st with warnings := st.warnings ++ ["Skipped one entry at " ++ timestamp
          ++ " because an image file was missing in the zip."] }

/-- One iteration of the per-Post loop.  The timezone resolution happens
outside any failure boundary, so its error aborts the whole run. -/
def processPost {Coord : Type} (env : RunEnv Coord) (format : ExportFormat) (ext : String)
    (timezoneOverrides : List NormalizedTimezoneOverrideSpan)
    (fallbackTimezone : Option String) (st : RunState Coord) (p : Post Coord) :
    Except String (RunState Coord) :=
  match resolvePostTimezone env.tz env.tzLookup env.locRender p.takenAt p.location
      timezoneOverrides fallbackTimezone st.warnings with
  | .error e => .error e
  | .ok (resolvedTimeZone, warnings1) =>
    .ok (processPostBody env format ext { st with warnings := warnings1 } p resolvedTimeZone)

/-- The per-Post loop over the filtered posts, in manifest order. -/
def processPosts {Coord : Type} (env : RunEnv Coord) (format : ExportFormat) (ext : String)
    (timezoneOverrides : List NormalizedTimezoneOverrideSpan)
    (fallbackTimezone : Option String) :
    RunState Coord → List (Post Coord) → Except String (RunState Coord)
  | st, [] => .ok st
  | st, p :: rest =>
    match processPost env format ext timezoneOverrides fallbackTimezone st p with
    | .error e => .error e
    | .ok st1 => processPosts env format ext timezoneOverrides fallbackTimezone st1 rest

/-- The mutable state of the combining stage. -/
structure CombineState where
  combinedFiles : List NamedFile
  combinedNames : List String
  warnings : List String
  iptcEmbeddingFailed : Bool

/-- One iteration of the combining loop: the whole body is one failure
boundary whose errors become warnings. -/
def combineStep {Coord : Type} (env : RunEnv Coord) (format : ExportFormat) (ext : String)
    (rearPhotoLarge : Bool) (cs : CombineState) (candidate : CombineCandidate Coord) :
    CombineState :=
  let baseBlob := if rearPhotoLarge then candidate.primary.bytes else candidate.secondary.bytes
  let overlayBlob := if rearPhotoLarge then candidate.secondary.bytes else candidate.primary.bytes
  let attempt : Except String (List Nat × Bool) :=
    match env.combine baseBlob overlayBlob with
    | .error e => .error e
    | .ok combinedBlob =>
      match format with
      | .jpg => addMetadataToJpeg env combinedBlob candidate.takenAt candidate.timeZone
          candidate.location candidate.caption
      | .png => .ok (combinedBlob, true)
  match attempt with
  | .error reason =>
    { cs with warnings := cs.warnings ++ ["Failed to build a combined image for "
        ++ formatTimestampInTimeZone env.tz candidate.takenAt candidate.timeZone
        ++ " (" ++ candidate.timeZone ++ "): " ++ reason] }
  | .ok (bytes, iptcOk) =>
    let named := getUniqueFilename
      (formatTimestampInTimeZone env.tz candidate.takenAt candidate.timeZone ++ "_combined" ++ ext)
      cs.combinedNames
    { cs with
        combinedFiles := cs.combinedFiles ++ [{ name := named.1, bytes := bytes }],
        combinedNames := named.2,
        iptcEmbeddingFailed := cs.iptcEmbeddingFailed || !iptcOk }

/-- Deduplication keeping first occurrences, with explicit fuel (the list
length always suffices, since `filter` never lengthens its input); written
this way so that it evaluates by kernel reduction. -/
def dedupeFuel : Nat → List String → List String
  | 0, l => l
  | _ + 1, [] => []
  | fuel + 1, x :: xs => x :: dedupeFuel fuel (xs.filter fun y => y ≠ x)

/-- `Array.from(new Set(...))`: deduplication keeping first occurrences. -/
def dedupe (l : List String) : List String := dedupeFuel l.length l

/-- The aggregated IPTC warning of source `processBeRealExport`. -/
def iptcWarningMessage : String :=
  "Could not embed IPTC metadata for one or more JPG exports; EXIF metadata was still written."

/-- Source `ProcessorResult`, restricted to the parts the archive writer
does not own: the export files (also the `shareFiles`), their count, and
the deduplicated warnings. -/
structure RunResult where
  files : List NamedFile
  exportedCount : Nat
  warnings : List String
deriving DecidableEq, Repr

/-- Source `processBeRealExport`, from the parsed manifest onwards
(archive loading, manifest location and JSON parsing are the external
archive capability; zip packaging at the end likewise). -/
def processRun {Coord : Type} (env : RunEnv Coord) (settings : ProcessorSettings)
    (posts : List (Post Coord)) : Except String RunResult :=
  let effectiveFormat := settings.exportFormat
  let ext := extensionOf effectiveFormat
  let filteredPosts := filterPosts settings.sinceDate settings.endDate posts
  match normalizeFallbackTimezone env.tz settings.fallbackTimezone with
  | .error e => .error e
  | .ok fallbackTimezone =>
    match normalizeTimezoneOverrides env.tz settings.timezoneOverrides with
    | .error e => .error e
    | .ok timezoneOverrides =>
      match processPosts env effectiveFormat ext timezoneOverrides fallbackTimezone
          ⟨[], [], [], [], false⟩ filteredPosts with
      | .error e => .error e
      | .ok st =>
        let afterCombine :=
          if settings.createCombinedImages then
            let cs := st.combineCandidates.foldl
              (combineStep env effectiveFormat ext settings.rearPhotoLarge)
              ⟨[], [], st.warnings, st.iptcEmbeddingFailed⟩
            (cs.combinedFiles, cs.warnings, cs.iptcEmbeddingFailed)
          else (st.processedSingles, st.warnings, st.iptcEmbeddingFailed)
        let finalWarnings :=
          if effectiveFormat = .jpg ∧ afterCombine.2.2 then
            afterCombine.2.1 ++ [iptcWarningMessage]
          else afterCombine.2.1
        .ok { files := afterCombine.1, exportedCount := afterCombine.1.length,
              warnings := dedupe finalWarnings }

theorem land255_eq_mod (x : Nat) : x &&& 255 = x % 256 := by
  have h := Nat.and_pow_two_sub_one_eq_mod x 8
  norm_num at h
  exact h

theorem shiftRight8_eq_div (x : Nat) : x >>> 8 = x / 256 := by
  have h := Nat.shiftRight_eq_div_pow x 8
  norm_num at h
  exact h

theorem findTimezoneFromOverridesGo_append (env : TZEnv) (takenAt : Int)
    (acc : Option String) (l₁ l₂ : List NormalizedTimezoneOverrideSpan) :
    findTimezoneFromOverridesGo env takenAt acc (l₁ ++ l₂)
      = findTimezoneFromOverridesGo env takenAt
          (findTimezoneFromOverridesGo env takenAt acc l₁) l₂ := by
  induction l₁ generalizing acc with
  | nil => rfl
  | cons o rest ih => simp [findTimezoneFromOverridesGo, ih]

/-- C6: for every instant with no location and every ordered list of valid
override spans, the resolved timezone is the `timeZone` of the last span in
list order whose inclusive date window — compared against the instant's
calendar date formatted in that span's own zone — contains the instant
(later matches overwrite earlier ones, so of two overlapping spans the
later-indexed one wins). -/
theorem c6_override_last_match_wins (env : TZEnv) (takenAt : Int)
    (overrides : List NormalizedTimezoneOverrideSpan) :
    findTimezoneFromOverrides env takenAt overrides
      = ((overrides.filter fun o => overrideContains env takenAt o).getLast?).map
          NormalizedTimezoneOverrideSpan.timeZone := by
  induction overrides using List.reverseRecOn with
  | nil => rfl
  | append_singleton l o ih =>
    unfold findTimezoneFromOverrides at *
    rw [findTimezoneFromOverridesGo_append]
    by_cases h : overrideContains env takenAt o
    · simp [findTimezoneFromOverridesGo, h, List.filter_append, List.getLast?_concat]
    · simp [findTimezoneFromOverridesGo, h, List.filter_append, ih]

/-- C2: `resolveDateTimeInTimeZone` returns exactly the civil fields the
host formatter produces for the instant in the zone (provided the
formatter honours the `h23` hour cycle, i.e. does not emit hour 24), and
its `offsetMinutes` is the nearest-integer minute count between the
reinterpretation of those same civil fields as UTC and the real instant —
the zone's UTC offset at that specific instant, so instants on either side
of a DST transition get that transition's respective offsets. -/
theorem c2_resolveDateTimeInTimeZone_fields_and_offset (env : TZEnv) (t : Int) (z : String)
    (h24 : (env.fields t z).hour ≠ 24) :
    (resolveDateTimeInTimeZone env t z).year = (env.fields t z).year
    ∧ (resolveDateTimeInTimeZone env t z).month = (env.fields t z).month
    ∧ (resolveDateTimeInTimeZone env t z).day = (env.fields t z).day
    ∧ (resolveDateTimeInTimeZone env t z).hour = (env.fields t z).hour
    ∧ (resolveDateTimeInTimeZone env t z).minute = (env.fields t z).minute
    ∧ (resolveDateTimeInTimeZone env t z).second = (env.fields t z).second
    ∧ -30000 ≤ utcTimestampOfCivil (env.fields t z) - t
        - (resolveDateTimeInTimeZone env t z).offsetMinutes * 60000
    ∧ utcTimestampOfCivil (env.fields t z) - t
        - (resolveDateTimeInTimeZone env t z).offsetMinutes * 60000 < 30000 := by
  have hfields : (⟨(env.fields t z).year, (env.fields t z).month, (env.fields t z).day,
      (env.fields t z).hour, (env.fields t z).minute, (env.fields t z).second⟩ : DateParts)
      = env.fields t z := rfl
  simp only [resolveDateTimeInTimeZone, if_neg h24, hfields]
  refine ⟨trivial, trivial, trivial, trivial, trivial, trivial, ?_, ?_⟩ <;> omega

/-- A concrete formatter exhibiting a DST spring-forward: before the
instant 1711846800000 (2024-03-31 01:00 UTC) the civil time reads 01:30
(offset +60), after it 03:30 (offset +120), as Europe/Berlin does. -/
def dstTZEnv : TZEnv :=
  { fields := fun t _ =>
      if t < 1711846800000 then ⟨2024, 3, 31, 1, 30, 0⟩ else ⟨2024, 3, 31, 3, 30, 0⟩,
    valid := fun _ => true }

theorem c2_witness :
    (dstTZEnv.fields 1711845000000 "Europe/Berlin").hour ≠ 24
    ∧ ((resolveDateTimeInTimeZone dstTZEnv 1711845000000 "Europe/Berlin").year
        = (dstTZEnv.fields 1711845000000 "Europe/Berlin").year
      ∧ (resolveDateTimeInTimeZone dstTZEnv 1711845000000 "Europe/Berlin").month
        = (dstTZEnv.fields 1711845000000 "Europe/Berlin").month
      ∧ (resolveDateTimeInTimeZone dstTZEnv 1711845000000 "Europe/Berlin").day
        = (dstTZEnv.fields 1711845000000 "Europe/Berlin").day
      ∧ (resolveDateTimeInTimeZone dstTZEnv 1711845000000 "Europe/Berlin").hour
        = (dstTZEnv.fields 1711845000000 "Europe/Berlin").hour
      ∧ (resolveDateTimeInTimeZone dstTZEnv 1711845000000 "Europe/Berlin").minute
        = (dstTZEnv.fields 1711845000000 "Europe/Berlin").minute
      ∧ (resolveDateTimeInTimeZone dstTZEnv 1711845000000 "Europe/Berlin").second
        = (dstTZEnv.fields 1711845000000 "Europe/Berlin").second
      ∧ -30000 ≤ utcTimestampOfCivil (dstTZEnv.fields 1711845000000 "Europe/Berlin")
          - 1711845000000
          - (resolveDateTimeInTimeZone dstTZEnv 1711845000000 "Europe/Berlin").offsetMinutes
            * 60000
      ∧ utcTimestampOfCivil (dstTZEnv.fields 1711845000000 "Europe/Berlin") - 1711845000000
          - (resolveDateTimeInTimeZone dstTZEnv 1711845000000 "Europe/Berlin").offsetMinutes
            * 60000 < 30000)
    ∧ (resolveDateTimeInTimeZone dstTZEnv 1711845000000 "Europe/Berlin").offsetMinutes = 60
    ∧ (resolveDateTimeInTimeZone dstTZEnv 1711848600000 "Europe/Berlin").offsetMinutes = 120 :=
  ⟨by decide,
   c2_resolveDateTimeInTimeZone_fields_and_offset dstTZEnv 1711845000000 "Europe/Berlin"
     (by decide),
   by decide, by decide⟩

theorem normalizeOverrideRow_label_toOption (env : TZEnv) (la lb : String)
    (o : TimezoneOverrideSpan) :
    (normalizeOverrideRow env la o).toOption = (normalizeOverrideRow env lb o).toOption := by
  unfold normalizeOverrideRow
  cases checkOverrideRow env o <;> rfl

theorem normalizeOverrideRow_blank (env : TZEnv) (lab : String) (s : TimezoneOverrideSpan)
    (h1 : jsTrim s.startDate = "") (h2 : jsTrim s.endDate = "") (h3 : jsTrim s.timeZone = "") :
    normalizeOverrideRow env lab s = .ok none := by
  simp [normalizeOverrideRow, checkOverrideRow, h1, h2, h3]

theorem normalizeFrom_toOption_index (env : TZEnv) (l : List TimezoneOverrideSpan) :
    ∀ i j, (normalizeTimezoneOverridesFrom env i l).toOption
      = (normalizeTimezoneOverridesFrom env j l).toOption := by
  induction l with
  | nil => intro i j; rfl
  | cons o rest ih =>
    intro i j
    have hrow := normalizeOverrideRow_label_toOption env
      ("Timezone span " ++ natToString (i + 1)) ("Timezone span " ++ natToString (j + 1)) o
    simp only [normalizeTimezoneOverridesFrom]
    cases hx : normalizeOverrideRow env ("Timezone span " ++ natToString (i + 1)) o with
    | error e =>
      cases hy : normalizeOverrideRow env ("Timezone span " ++ natToString (j + 1)) o with
      | error e2 => simp [Except.toOption]
      | ok v => rw [hx, hy] at hrow; simp [Except.toOption] at hrow
    | ok v =>
      cases hy : normalizeOverrideRow env ("Timezone span " ++ natToString (j + 1)) o with
      | error e => rw [hx, hy] at hrow; simp [Except.toOption] at hrow
      | ok w =>
        rw [hx, hy] at hrow
        simp only [Except.toOption, Option.some.injEq] at hrow
        subst hrow
        cases v with
        | none => exact ih (i + 1) (j + 1)
        | some ns =>
          have htail := ih (i + 1) (j + 1)
          cases ha : normalizeTimezoneOverridesFrom env (i + 1) rest with
          | error e =>
            cases hb : normalizeTimezoneOverridesFrom env (j + 1) rest with
            | error e2 => simp [Except.toOption]
            | ok b => rw [ha, hb] at htail; simp [Except.toOption] at htail
          | ok a =>
            cases hb : normalizeTimezoneOverridesFrom env (j + 1) rest with
            | error e2 => rw [ha, hb] at htail; simp [Except.toOption] at htail
            | ok b =>
              rw [ha, hb] at htail
              simp only [Except.toOption, Option.some.injEq] at htail
              subst htail
              rfl

theorem normalizeFrom_skip_blank (env : TZEnv) (s : TimezoneOverrideSpan)
    (h1 : jsTrim s.startDate = "") (h2 : jsTrim s.endDate = "") (h3 : jsTrim s.timeZone = "")
    (l₁ l₂ : List TimezoneOverrideSpan) : ∀ i j,
    (normalizeTimezoneOverridesFrom env i (l₁ ++ s :: l₂)).toOption
      = (normalizeTimezoneOverridesFrom env j (l₁ ++ l₂)).toOption := by
  induction l₁ with
  | nil =>
    intro i j
    simp only [List.nil_append, normalizeTimezoneOverridesFrom,
      normalizeOverrideRow_blank env _ s h1 h2 h3]
    exact normalizeFrom_toOption_index env l₂ (i + 1) j
  | cons o rest ih =>
    intro i j
    have hrow := normalizeOverrideRow_label_toOption env
      ("Timezone span " ++ natToString (i + 1)) ("Timezone span " ++ natToString (j + 1)) o
    simp only [List.cons_append, normalizeTimezoneOverridesFrom]
    cases hx : normalizeOverrideRow env ("Timezone span " ++ natToString (i + 1)) o with
    | error e =>
      cases hy : normalizeOverrideRow env ("Timezone span " ++ natToString (j + 1)) o with
      | error e2 => simp [Except.toOption]
      | ok v => rw [hx, hy] at hrow; simp [Except.toOption] at hrow
    | ok v =>
      cases hy : normalizeOverrideRow env ("Timezone span " ++ natToString (j + 1)) o with
      | error e => rw [hx, hy] at hrow; simp [Except.toOption] at hrow
      | ok w =>
        rw [hx, hy] at hrow
        simp only [Except.toOption, Option.some.injEq] at hrow
        subst hrow
        cases v with
        | none => exact ih (i + 1) (j + 1)
        | some ns =>
          have htail := ih (i + 1) (j + 1)
          cases ha : normalizeTimezoneOverridesFrom env (i + 1) (rest ++ s :: l₂) with
          | error e =>
            cases hb : normalizeTimezoneOverridesFrom env (j + 1) (rest ++ l₂) with
            | error e2 => simp [Except.toOption]
            | ok b => rw [ha, hb] at htail; simp [Except.toOption] at htail
          | ok a =>
            cases hb : normalizeTimezoneOverridesFrom env (j + 1) (rest ++ l₂) with
            | error e2 => rw [ha, hb] at htail; simp [Except.toOption] at htail
            | ok b =>
              rw [ha, hb] at htail
              simp only [Except.toOption, Option.some.injEq] at htail
              subst htail
              rfl

/-- C10: an override span whose `startDate`, `endDate` and `timeZone` are
all blank after trimming is silently skipped by
`normalizeTimezoneOverrides`: it raises no error and contributes no
normalized span, and a run configured with such a row proceeds exactly as
if the row were absent (same success/failure and, on success, identical
results; error messages may renumber later rows, which `Except.toOption`
abstracts over). -/
theorem c10_all_blank_row_skipped (s : TimezoneOverrideSpan)
    (h1 : jsTrim s.startDate = "") (h2 : jsTrim s.endDate = "") (h3 : jsTrim s.timeZone = "") :
    (∀ (env : TZEnv) (l₁ l₂ : List TimezoneOverrideSpan),
      (normalizeTimezoneOverrides env (l₁ ++ s :: l₂)).toOption
        = (normalizeTimezoneOverrides env (l₁ ++ l₂)).toOption)
    ∧ (∀ (Coord : Type) (env : RunEnv Coord) (settings : ProcessorSettings)
        (l₁ l₂ : List TimezoneOverrideSpan) (posts : List (Post Coord)),
      (processRun env { settings with timezoneOverrides := l₁ ++ s :: l₂ } posts).toOption
        = (processRun env { settings with timezoneOverrides := l₁ ++ l₂ } posts).toOption) := by
  constructor
  · intro env l₁ l₂
    exact normalizeFrom_skip_blank env s h1 h2 h3 l₁ l₂ 0 0
  · intro Coord env settings l₁ l₂ posts
    have hskip := normalizeFrom_skip_blank env.tz s h1 h2 h3 l₁ l₂ 0 0
    cases hf : normalizeFallbackTimezone env.tz settings.fallbackTimezone with
    | error e => simp [processRun, hf, Except.toOption]
    | ok fb =>
      cases ha : normalizeTimezoneOverrides env.tz (l₁ ++ s :: l₂) with
      | error e =>
        cases hb : normalizeTimezoneOverrides env.tz (l₁ ++ l₂) with
        | error e2 => simp [processRun, hf, ha, hb, Except.toOption]
        | ok v =>
          exfalso
          unfold normalizeTimezoneOverrides at ha hb
          rw [ha, hb] at hskip
          simp [Except.toOption] at hskip
      | ok v =>
        cases hb : normalizeTimezoneOverrides env.tz (l₁ ++ l₂) with
        | error e2 =>
          exfalso
          unfold normalizeTimezoneOverrides at ha hb
          rw [ha, hb] at hskip
          simp [Except.toOption] at hskip
        | ok w =>
          have hvw : v = w := by
            unfold normalizeTimezoneOverrides at ha hb
            rw [ha, hb] at hskip
            simpa [Except.toOption] using hskip
          subst hvw
          simp [processRun, hf, ha, hb]

theorem c10_witness :
    (normalizeTimezoneOverrides dstTZEnv ([] ++ TimezoneOverrideSpan.mk "" "" "" :: [])).toOption
      = (normalizeTimezoneOverrides dstTZEnv ([] ++ [])).toOption :=
  (c10_all_blank_row_skipped ⟨"", "", ""⟩ (by decide) (by decide) (by decide)).1 dstTZEnv [] []

theorem suffixName_inj (stem ext : String) {c₁ c₂ : Nat}
    (h : suffixName stem ext c₁ = suffixName stem ext c₂) : c₁ = c₂ := by
  unfold suffixName at h
  have hdata := congrArg String.data h
  simp only [String.data_append] at hdata
  have hmid : (natToString c₁).data = (natToString c₂).data := by
    have h1 := List.append_cancel_right hdata
    exact List.append_cancel_left h1
  exact natToString_inj (by
    cases hs1 : natToString c₁
    cases hs2 : natToString c₂
    rw [hs1, hs2] at hmid
    simp only at hmid
    rw [hmid])

theorem exists_free_counter (stem ext : String) (used : List String) :
    ∃ c, 1 ≤ c ∧ c ≤ used.length + 1 ∧ suffixName stem ext c ∉ used := by
  by_contra hcon
  push_neg at hcon
  have hsub : ((List.range (used.length + 1)).map fun k => suffixName stem ext (k + 1))
      ⊆ used := by
    intro x hx
    simp only [List.mem_map, List.mem_range] at hx
    obtain ⟨k, hk, rfl⟩ := hx
    exact hcon (k + 1) (by omega) (by omega)
  have hnodup : ((List.range (used.length + 1)).map
      fun k => suffixName stem ext (k + 1)).Nodup := by
    refine List.Nodup.map ?_ (List.nodup_range _)
    intro a b hab
    have := suffixName_inj stem ext hab
    omega
  have hle := (hnodup.subperm hsub).length_le
  rw [List.length_map, List.length_range] at hle
  omega

theorem searchCounter_spec (stem ext : String) (used : List String) :
    ∀ (fuel c₀ : Nat), (∃ k, k ≤ fuel ∧ suffixName stem ext (c₀ + k) ∉ used) →
    c₀ ≤ searchCounter stem ext used c₀ fuel
    ∧ suffixName stem ext (searchCounter stem ext used c₀ fuel) ∉ used
    ∧ ∀ j, c₀ ≤ j → j < searchCounter stem ext used c₀ fuel →
        suffixName stem ext j ∈ used := by
  intro fuel
  induction fuel with
  | zero =>
    intro c₀ hex
    obtain ⟨k, hk, hfree⟩ := hex
    have hk0 : k = 0 := by omega
    subst hk0
    simp only [searchCounter]
    exact ⟨Nat.le_refl _, by simpa using hfree, fun j hj1 hj2 => absurd hj2 (by omega)⟩
  | succ fuel ih =>
    intro c₀ hex
    simp only [searchCounter]
    by_cases hc : suffixName stem ext c₀ ∈ used
    · rw [if_pos hc]
      have hex2 : ∃ k, k ≤ fuel ∧ suffixName stem ext (c₀ + 1 + k) ∉ used := by
        obtain ⟨k, hk, hfree⟩ := hex
        cases k with
        | zero => exact absurd hc (by simpa using hfree)
        | succ k2 =>
          refine ⟨k2, by omega, ?_⟩
          have heq : c₀ + 1 + k2 = c₀ + (k2 + 1) := by omega
          rw [heq]
          exact hfree
      obtain ⟨ha, hb, hrest⟩ := ih (c₀ + 1) hex2
      refine ⟨by omega, hb, ?_⟩
      intro j hj1 hj2
      rcases Nat.eq_or_lt_of_le hj1 with heq | hlt
      · rw [← heq]; exact hc
      · exact hrest j (by omega) hj2
    · rw [if_neg hc]
      exact ⟨Nat.le_refl _, hc,
        fun j h1 h2 => absurd (Nat.lt_of_le_of_lt h1 h2) (Nat.lt_irrefl _)⟩

/-- C9: every emitted output filename is unique within a run:
`getUniqueFilename` returns the candidate unchanged when it is not among
the used names, and otherwise the candidate with the smallest numeric
suffix `_1`, `_2`, … (inserted before the extension) that is not yet
used; in both cases the returned name is added to the used set. -/
theorem c9_getUniqueFilename_unique (candidate : String) (used : List String) :
    (candidate ∉ used → getUniqueFilename candidate used = (candidate, candidate :: used))
    ∧ (candidate ∈ used →
      ∃ c, 1 ≤ c
        ∧ (getUniqueFilename candidate used).1
            = suffixName (stemOf candidate) (extOf candidate) c
        ∧ suffixName (stemOf candidate) (extOf candidate) c ∉ used
        ∧ (∀ j, 1 ≤ j → j < c → suffixName (stemOf candidate) (extOf candidate) j ∈ used)
        ∧ (getUniqueFilename candidate used).2
            = suffixName (stemOf candidate) (extOf candidate) c :: used) := by
  constructor
  · intro h
    simp [getUniqueFilename, h]
  · intro h
    obtain ⟨c0, hc1, hc2, hfree⟩ := exists_free_counter (stemOf candidate) (extOf candidate) used
    have hex : ∃ k, k ≤ used.length + 1
        ∧ suffixName (stemOf candidate) (extOf candidate) (1 + k) ∉ used := by
      refine ⟨c0 - 1, by omega, ?_⟩
      have heq : 1 + (c0 - 1) = c0 := by omega
      rw [heq]
      exact hfree
    obtain ⟨ha, hb, hrest⟩ :=
      searchCounter_spec (stemOf candidate) (extOf candidate) used (used.length + 1) 1 hex
    refine ⟨searchCounter (stemOf candidate) (extOf candidate) used 1 (used.length + 1),
      ha, ?_, hb, fun j hj1 hj2 => hrest j hj1 hj2, ?_⟩
    · simp [getUniqueFilename, h]
    · simp [getUniqueFilename, h]

theorem c9_witness : getUniqueFilename "a.jpg" [] = ("a.jpg", ["a.jpg"]) :=
  (c9_getUniqueFilename_unique "a.jpg" []).1 (by simp)

/-- A trivial constant formatter used in concrete scenarios. -/
def constTZEnv : TZEnv := { fields := fun _ _ => ⟨2024, 1, 1, 0, 0, 0⟩, valid := fun _ => true }

/-- A formatter whose zone database accepts only `UTC`. -/
def strictTZEnv : TZEnv := { fields := fun _ _ => ⟨2024, 1, 1, 0, 0, 0⟩, valid := fun z => z = "UTC" }

/-- A concrete run environment over trivial coordinates. -/
def unitRunEnv : RunEnv Unit :=
  { tz := constTZEnv,
    tzLookup := fun _ => .error "lookup failed",
    locRender := fun _ => "0, 0",
    exifEmbed := fun blob _ _ _ _ => .ok blob,
    findImage := fun _ => none,
    convert := fun _ => .error "no raster",
    combine := fun _ _ => .error "no raster" }

/-- A concrete run environment whose zone database accepts only `UTC`. -/
def strictRunEnv : RunEnv Unit :=
  { tz := strictTZEnv,
    tzLookup := fun _ => .error "lookup failed",
    locRender := fun _ => "0, 0",
    exifEmbed := fun blob _ _ _ _ => .ok blob,
    findImage := fun _ => none,
    convert := fun _ => .error "no raster",
    combine := fun _ _ => .error "no raster" }

theorem resolvePostTimezone_error_of_unresolvable {Coord : Type} (env : TZEnv)
    (tzLookup : Coord → Except String String) (locRender : Coord → String)
    (takenAt : Int) (spans : List NormalizedTimezoneOverrideSpan) (warnings : List String)
    (hfind : findTimezoneFromOverrides env takenAt spans = none) :
    ∃ e, resolvePostTimezone env tzLookup locRender takenAt (none : Option Coord)
      spans none warnings = .error e := by
  simp [resolvePostTimezone, hfind, jsTruthyOpt]

theorem processPosts_error_of_bad {Coord : Type} (env : RunEnv Coord)
    (format : ExportFormat) (ext : String) (spans : List NormalizedTimezoneOverrideSpan)
    (p : Post Coord) (hloc : p.location = none)
    (hfind : findTimezoneFromOverrides env.tz p.takenAt spans = none) :
    ∀ (l : List (Post Coord)) (st : RunState Coord), p ∈ l →
    ∃ e, processPosts env format ext spans none st l = .error e := by
  intro l
  induction l with
  | nil =>
    intro st h
    exact absurd h (List.not_mem_nil p)
  | cons x rest ih =>
    intro st hmem
    simp only [processPosts]
    cases hx : processPost env format ext spans none st x with
    | error e => exact ⟨e, rfl⟩
    | ok st1 =>
      rcases List.mem_cons.mp hmem with heq | htail
      · exfalso
        subst heq
        simp [processPost, resolvePostTimezone, hloc, hfind, jsTruthyOpt] at hx
      · exact ih st1 htail

/-- C1: a filtered Post with no location that matches no configured
override span, in a run with no fallback timezone, makes the whole run
abort with an error — no result is produced, rather than the Post being
skipped.  (If the override list itself fails validation the run aborts
even earlier, so the conclusion quantifies over successful normalizations
through `hov`.) -/
theorem c1_unresolvable_timezone_aborts_run {Coord : Type} (env : RunEnv Coord)
    (settings : ProcessorSettings) (posts : List (Post Coord)) (p : Post Coord)
    (hfb : jsTrim settings.fallbackTimezone = "")
    (hmem : p ∈ filterPosts settings.sinceDate settings.endDate posts)
    (hloc : p.location = none)
    (hov : ∀ spans, normalizeTimezoneOverrides env.tz settings.timezoneOverrides = .ok spans →
      findTimezoneFromOverrides env.tz p.takenAt spans = none) :
    ∃ e, processRun env settings posts = .error e := by
  have hfallback : normalizeFallbackTimezone env.tz settings.fallbackTimezone = .ok none := by
    simp [normalizeFallbackTimezone, hfb]
  cases hov2 : normalizeTimezoneOverrides env.tz settings.timezoneOverrides with
  | error e => exact ⟨e, by simp [processRun, hfallback, hov2]⟩
  | ok spans =>
    obtain ⟨e, he⟩ := processPosts_error_of_bad env settings.exportFormat
      (extensionOf settings.exportFormat) spans p hloc (hov spans hov2)
      (filterPosts settings.sinceDate settings.endDate posts) ⟨[], [], [], [], false⟩ hmem
    exact ⟨e, by simp [processRun, hfallback, hov2, he]⟩

/-- Settings of the spec's failing scenario: no override spans, no
fallback zone. -/
def noZoneSettings : ProcessorSettings := ⟨.jpg, false, false, "", "", "", []⟩

/-- The spec's scenario Post: `location = null`. -/
def locationlessPost : Post Unit := ⟨0, none, none, none, none⟩

theorem c1_witness :
    ∃ e, processRun unitRunEnv noZoneSettings [locationlessPost] = .error e :=
  c1_unresolvable_timezone_aborts_run unitRunEnv noZoneSettings [locationlessPost]
    locationlessPost rfl
    (by exact List.mem_singleton.mpr rfl)
    rfl
    (by
      intro spans h
      cases h
      rfl)

theorem checkOverrideRow_error_of_bad (env : TZEnv) (s : TimezoneOverrideSpan)
    (hnb : ¬(jsTrim s.startDate = "" ∧ jsTrim s.endDate = "" ∧ jsTrim s.timeZone = ""))
    (hbad : jsTrim s.timeZone = "" ∨ env.valid (jsTrim s.timeZone) = false
      ∨ (jsTrim s.startDate ≠ "" ∧ isIsoDateString (jsTrim s.startDate) = false)
      ∨ (jsTrim s.endDate ≠ "" ∧ isIsoDateString (jsTrim s.endDate) = false)
      ∨ (jsTrim s.startDate ≠ "" ∧ jsTrim s.endDate ≠ ""
          ∧ strLtB (jsTrim s.endDate) (jsTrim s.startDate) = true)) :
    ∃ e, checkOverrideRow env s = .error e := by
  unfold checkOverrideRow
  rw [if_neg hnb]
  by_cases h2 : jsTrim s.timeZone = ""
  · rw [if_pos h2]
    exact ⟨_, rfl⟩
  · rw [if_neg h2]
    by_cases h3 : env.valid (jsTrim s.timeZone) = true
    · rw [if_neg (by simpa using h3)]
      by_cases h4 : jsTrim s.startDate ≠ "" ∧ ¬ isIsoDateString (jsTrim s.startDate) = true
      · rw [if_pos h4]
        exact ⟨_, rfl⟩
      · rw [if_neg h4]
        by_cases h5 : jsTrim s.endDate ≠ "" ∧ ¬ isIsoDateString (jsTrim s.endDate) = true
        · rw [if_pos h5]
          exact ⟨_, rfl⟩
        · rw [if_neg h5]
          by_cases h6 : jsTrim s.startDate ≠ "" ∧ jsTrim s.endDate ≠ ""
              ∧ strLtB (jsTrim s.endDate) (jsTrim s.startDate) = true
          · rw [if_pos h6]
            exact ⟨_, rfl⟩
          · exfalso
            rcases hbad with hb | hb | hb | hb | hb
            · exact h2 hb
            · rw [hb] at h3
              simp at h3
            · exact h4 ⟨hb.1, by simp [hb.2]⟩
            · exact h5 ⟨hb.1, by simp [hb.2]⟩
            · exact h6 hb
    · rw [if_pos (by simpa using h3)]
      exact ⟨_, rfl⟩

theorem normalizeFrom_error_of_bad_mem (env : TZEnv) (s : TimezoneOverrideSpan)
    (hnb : ¬(jsTrim s.startDate = "" ∧ jsTrim s.endDate = "" ∧ jsTrim s.timeZone = ""))
    (hbad : jsTrim s.timeZone = "" ∨ env.valid (jsTrim s.timeZone) = false
      ∨ (jsTrim s.startDate ≠ "" ∧ isIsoDateString (jsTrim s.startDate) = false)
      ∨ (jsTrim s.endDate ≠ "" ∧ isIsoDateString (jsTrim s.endDate) = false)
      ∨ (jsTrim s.startDate ≠ "" ∧ jsTrim s.endDate ≠ ""
          ∧ strLtB (jsTrim s.endDate) (jsTrim s.startDate) = true)) :
    ∀ (l : List TimezoneOverrideSpan) (i : Nat), s ∈ l →
    ∃ e, normalizeTimezoneOverridesFrom env i l = .error e := by
  intro l
  induction l with
  | nil =>
    intro i h
    exact absurd h (List.not_mem_nil s)
  | cons x rest ih =>
    intro i hmem
    simp only [normalizeTimezoneOverridesFrom]
    cases hx : normalizeOverrideRow env ("Timezone span " ++ natToString (i + 1)) x with
    | error e => exact ⟨e, rfl⟩
    | ok v =>
      rcases List.mem_cons.mp hmem with heq | htail
      · exfalso
        subst heq
        obtain ⟨e, he⟩ := checkOverrideRow_error_of_bad env s hnb hbad
        rw [normalizeOverrideRow, he] at hx
        simp at hx
      · cases v with
        | none => exact ih (i + 1) htail
        | some ns =>
          obtain ⟨e, he⟩ := ih (i + 1) htail
          exact ⟨e, by rw [he]⟩

/-- C7 (amended): for every settings object whose override-span list
contains a span that is not entirely blank and, after trimming, has a
blank timezone, an invalid zone identifier, a nonempty start or end date
not of the form `YYYY-MM-DD`, or both dates nonempty with
`startDate > endDate`, the run fails with a descriptive error before any
per-Post processing begins, and no output archive is produced (the
conclusion holds for every posts list).  An entirely blank span is instead
silently skipped — see the counterexample to the unamended claim. -/
theorem c7_amended_invalid_span_aborts_run {Coord : Type} (env : RunEnv Coord)
    (settings : ProcessorSettings) (s : TimezoneOverrideSpan)
    (hmem : s ∈ settings.timezoneOverrides)
    (hnb : ¬(jsTrim s.startDate = "" ∧ jsTrim s.endDate = "" ∧ jsTrim s.timeZone = ""))
    (hbad : jsTrim s.timeZone = "" ∨ env.tz.valid (jsTrim s.timeZone) = false
      ∨ (jsTrim s.startDate ≠ "" ∧ isIsoDateString (jsTrim s.startDate) = false)
      ∨ (jsTrim s.endDate ≠ "" ∧ isIsoDateString (jsTrim s.endDate) = false)
      ∨ (jsTrim s.startDate ≠ "" ∧ jsTrim s.endDate ≠ ""
          ∧ strLtB (jsTrim s.endDate) (jsTrim s.startDate) = true)) :
    ∀ posts : List (Post Coord), ∃ e, processRun env settings posts = .error e := by
  intro posts
  cases hf : normalizeFallbackTimezone env.tz settings.fallbackTimezone with
  | error e => exact ⟨e, by simp [processRun, hf]⟩
  | ok fb =>
    obtain ⟨e, he⟩ := normalizeFrom_error_of_bad_mem env.tz s hnb hbad
      settings.timezoneOverrides 0 hmem
    exact ⟨e, by simp [processRun, hf, normalizeTimezoneOverrides, he]⟩

/-- Settings whose override list consists of one entirely blank span. -/
def blankSpanSettings : ProcessorSettings := ⟨.jpg, false, false, "", "", "", [⟨"", "", ""⟩]⟩

/-- Counterexample to C7 as frozen: this settings object's override-span
list contains a span with a blank timezone (the all-blank row), yet the
run does not fail — it completes with a result. -/
theorem c7_counterexample :
    (TimezoneOverrideSpan.mk "" "" "") ∈ blankSpanSettings.timezoneOverrides
    ∧ (TimezoneOverrideSpan.mk "" "" "").timeZone = ""
    ∧ processRun unitRunEnv blankSpanSettings ([] : List (Post Unit))
        = .ok { files := [], exportedCount := 0, warnings := [] } :=
  ⟨List.mem_singleton.mpr rfl, rfl, rfl⟩

/-- Settings whose override list has a span with an invalid timezone. -/
def invalidSpanSettings : ProcessorSettings :=
  ⟨.jpg, false, false, "", "", "", [⟨"2024-01-01", "2024-01-02", "Nope"⟩]⟩

theorem c7_witness :
    ∃ e, processRun strictRunEnv invalidSpanSettings ([] : List (Post Unit)) = .error e :=
  c7_amended_invalid_span_aborts_run strictRunEnv invalidSpanSettings
    ⟨"2024-01-01", "2024-01-02", "Nope"⟩ (List.mem_singleton.mpr rfl)
    (by decide) (by decide) []

theorem mem_of_mem_dedupeFuel (a : String) :
    ∀ (fuel : Nat) (l : List String), a ∈ dedupeFuel fuel l → a ∈ l := by
  intro fuel
  induction fuel with
  | zero =>
    intro l h
    exact h
  | succ f ih =>
    intro l h
    cases l with
    | nil => exact h
    | cons x xs =>
      simp only [dedupeFuel, List.mem_cons] at h ⊢
      rcases h with heq | h2
      · exact Or.inl heq
      · exact Or.inr (List.mem_of_mem_filter (ih _ h2))

theorem count_dedupeFuel_le_one (a : String) :
    ∀ (fuel : Nat) (l : List String), l.length ≤ fuel → (dedupeFuel fuel l).count a ≤ 1 := by
  intro fuel
  induction fuel with
  | zero =>
    intro l h
    have hl : l = [] := by
      cases l with
      | nil => rfl
      | cons x xs => simp at h
    subst hl
    simp [dedupeFuel]
  | succ f ih =>
    intro l h
    cases l with
    | nil => simp [dedupeFuel]
    | cons x xs =>
      simp only [dedupeFuel]
      by_cases hax : a = x
      · subst hax
        have hnot : a ∉ dedupeFuel f (xs.filter fun y => y ≠ a) := by
          intro hmem
          have h2 := List.of_mem_filter (mem_of_mem_dedupeFuel a f _ hmem)
          simp at h2
        have h0 : (dedupeFuel f (xs.filter fun y => y ≠ a)).count a = 0 :=
          List.count_eq_zero.mpr hnot
        rw [List.count_cons, h0]
        simp
      · have hcnt := ih (xs.filter fun y => y ≠ x)
          (Nat.le_trans (List.length_filter_le _ _) (by simpa using h))
        rw [List.count_cons]
        have hbx : (x == a) = false := beq_eq_false_iff_ne.mpr (Ne.symm hax)
        rw [hbx]
        simpa using hcnt

theorem count_dedupe_le_one (a : String) (l : List String) : (dedupe l).count a ≤ 1 :=
  count_dedupeFuel_le_one a l.length l (Nat.le_refl _)

theorem processRun_ok_warnings {Coord : Type} (env : RunEnv Coord)
    (settings : ProcessorSettings) (posts : List (Post Coord)) (r : RunResult)
    (h : processRun env settings posts = .ok r) : ∃ w, r.warnings = dedupe w := by
  unfold processRun at h
  dsimp only at h
  split at h
  · exact absurd h (by simp)
  · split at h
    · exact absurd h (by simp)
    · split at h
      · exact absurd h (by simp)
      · split at h
        · injection h with h2
          rw [← h2]
          exact ⟨_, rfl⟩
        · injection h with h2
          rw [← h2]
          exact ⟨_, rfl⟩

/-- C8: IPTC embedding is best-effort.  (1) When the EXIF step succeeds
and any step of IPTC construction or splicing fails, `addMetadataToJpeg`
catches the failure and returns the EXIF-only bytes with
`iptcEmbedded = false` instead of propagating.  (2) Every successful run
reports the aggregated IPTC warning at most once, regardless of how many
files were affected.  (3) The per-Post loop body can only abort the run
through timezone resolution — metadata failures never do. -/
theorem c8_iptc_best_effort {Coord : Type} (env : RunEnv Coord) :
    (∀ (blob exifBlob : List Nat) (takenAt : Int) (timeZone : String)
        (location : Option Coord) (caption : Option String) (e : String),
      env.exifEmbed blob takenAt timeZone location caption = .ok exifBlob →
      addIptcToJpeg env.tz exifBlob takenAt timeZone caption = .error e →
      addMetadataToJpeg env blob takenAt timeZone location caption = .ok (exifBlob, false))
    ∧ (∀ (settings : ProcessorSettings) (posts : List (Post Coord)) (r : RunResult),
      processRun env settings posts = .ok r → r.warnings.count iptcWarningMessage ≤ 1)
    ∧ (∀ (format : ExportFormat) (ext : String)
        (spans : List NormalizedTimezoneOverrideSpan) (fb : Option String)
        (st : RunState Coord) (p : Post Coord) (e : String),
      processPost env format ext spans fb st p = .error e →
      resolvePostTimezone env.tz env.tzLookup env.locRender p.takenAt p.location spans fb
        st.warnings = .error e) := by
  refine ⟨?_, ?_, ?_⟩
  · intro blob exifBlob takenAt timeZone location caption e hexif hiptc
    simp [addMetadataToJpeg, hexif, hiptc, Bind.bind, Except.bind, pure, Except.pure]
  · intro settings posts r h
    obtain ⟨w, hw⟩ := processRun_ok_warnings env settings posts r h
    rw [hw]
    exact count_dedupe_le_one iptcWarningMessage w
  · intro format ext spans fb st p e h
    cases hr : resolvePostTimezone env.tz env.tzLookup env.locRender p.takenAt p.location
        spans fb st.warnings with
    | error e2 =>
      have hp : processPost env format ext spans fb st p = .error e2 := by
        unfold processPost
        rw [hr]
      rw [hp] at h
      injection h with h2
      rw [h2]
    | ok pr =>
      obtain ⟨tz1, w1⟩ := pr
      have hp : processPost env format ext spans fb st p
          = .ok (processPostBody env format ext { st with warnings := w1 } p tz1) := by
        unfold processPost
        rw [hr]
      rw [hp] at h
      simp at h

theorem c8_witness :
    addMetadataToJpeg unitRunEnv ([] : List Nat) 0 "UTC" none none = .ok ([], false) :=
  (c8_iptc_best_effort unitRunEnv).1 [] [] 0 "UTC" none none "Invalid JPEG stream." rfl rfl

theorem land255_shift_eq (n k : Nat) : (n >>> k) &&& 255 = n / 2 ^ k % 256 := by
  rw [Nat.shiftRight_eq_div_pow, land255_eq_mod]

/-- A dataset record as the spec describes it: `0x1C 0x02`, the dataset
id, a two-byte big-endian value length, then the value bytes. -/
def iptcDatasetSpec (datasetId : Nat) (value : List Nat) : List Nat :=
  [0x1c, 0x02, datasetId, value.length / 256, value.length % 256] ++ value

/-- The IPTC payload as the spec describes it: datasets 90 (UTF-8
escape), 55 (local civil `YYYYMMDD`), 60 (local civil `hhmmss±hhmm`), and
conditionally 120 (trimmed caption, UTF-8, only when non-empty). -/
def iptcPayloadSpec (env : TZEnv) (takenAt : Int) (timeZone : String)
    (caption : Option String) : List Nat :=
  iptcDatasetSpec 90 [0x1b, 0x25, 0x47]
    ++ iptcDatasetSpec 55 (utf8Bytes (formatIptcDateInTimeZone env takenAt timeZone))
    ++ iptcDatasetSpec 60 (utf8Bytes (formatIptcTimeInTimeZone env takenAt timeZone))
    ++ (if jsTrim (caption.getD "") ≠ "" then
          iptcDatasetSpec 120 (utf8Bytes (jsTrim (caption.getD ""))) else [])

/-- The APP13 segment as the spec describes it: `0xFF 0xED`, a two-byte
big-endian segment length counting the two length bytes themselves, the
`Photoshop 3.0\0` header, the `8BIM` signature, resource id `0x0404`, a
two-byte empty Pascal-style name, a four-byte big-endian payload length,
the payload, and one pad byte exactly when the payload length is odd. -/
def app13SegmentSpec (iptcPayload : List Nat) : List Nat :=
  let block := utf8Bytes "Photoshop 3.0\u0000" ++ utf8Bytes "8BIM" ++ [0x04, 0x04]
    ++ [0x00, 0x00]
    ++ [iptcPayload.length / 16777216 % 256, iptcPayload.length / 65536 % 256,
        iptcPayload.length / 256 % 256, iptcPayload.length % 256]
    ++ iptcPayload ++ (if iptcPayload.length % 2 = 1 then [0x00] else [])
  [0xff, 0xed, (block.length + 2) / 256, (block.length + 2) % 256] ++ block

theorem buildIptcDataset_ok (id : Nat) (v : List Nat) (hid : id ≤ 255)
    (hv : v.length ≤ 65535) : buildIptcDataset id v = .ok (iptcDatasetSpec id v) := by
  unfold buildIptcDataset iptcDatasetSpec
  rw [if_neg (by omega), if_neg (by omega)]
  have h1 : v.length >>> 8 &&& 255 = v.length / 256 := by
    rw [shiftRight8_eq_div, land255_eq_mod]
    exact Nat.mod_eq_of_lt (by omega)
  have h2 : v.length &&& 255 = v.length % 256 := land255_eq_mod _
  rw [h1, h2]

theorem buildIptcPayload_ok (env : TZEnv) (takenAt : Int) (timeZone : String)
    (caption : Option String)
    (hdate : (utf8Bytes (formatIptcDateInTimeZone env takenAt timeZone)).length ≤ 65535)
    (htime : (utf8Bytes (formatIptcTimeInTimeZone env takenAt timeZone)).length ≤ 65535)
    (hcap : (utf8Bytes (jsTrim (caption.getD ""))).length ≤ 65535) :
    buildIptcPayload env takenAt timeZone caption
      = .ok (iptcPayloadSpec env takenAt timeZone caption) := by
  unfold buildIptcPayload iptcPayloadSpec
  rw [buildIptcDataset_ok 90 [0x1b, 0x25, 0x47] (by omega) (by simp),
      buildIptcDataset_ok 55 _ (by omega) hdate,
      buildIptcDataset_ok 60 _ (by omega) htime]
  by_cases hc : jsTrim (caption.getD "") = ""
  · simp [hc, Bind.bind, Except.bind, pure, Except.pure]
  · simp [hc, Bind.bind, Except.bind, pure, Except.pure,
      buildIptcDataset_ok 120 _ (by omega) hcap]

theorem app13Block_length (p : List Nat) (b1 b2 b3 b4 : Nat) (padding : List Nat)
    (hpadlen : padding.length = (if p.length % 2 = 1 then 1 else 0)) :
    (utf8Bytes "Photoshop 3.0\u0000" ++ utf8Bytes "8BIM" ++ [0x04, 0x04] ++ [0x00, 0x00]
      ++ [b1, b2, b3, b4] ++ p ++ padding).length
      = 26 + p.length + (if p.length % 2 = 1 then 1 else 0) := by
  have hh : (utf8Bytes "Photoshop 3.0\u0000").length = 14 := rfl
  have hb : (utf8Bytes "8BIM").length = 4 := rfl
  simp [List.length_append, hh, hb, hpadlen]
  omega

theorem sourcePadding_length (p : List Nat) :
    (if p.length % 2 = 0 then ([] : List Nat) else [0x00]).length
      = (if p.length % 2 = 1 then 1 else 0) := by
  rcases Nat.mod_two_eq_zero_or_one p.length with hp | hp <;> simp [hp]

theorem specPadding_length (p : List Nat) :
    (if p.length % 2 = 1 then [(0x00 : Nat)] else []).length
      = (if p.length % 2 = 1 then 1 else 0) := by
  rcases Nat.mod_two_eq_zero_or_one p.length with hp | hp <;> simp [hp]

theorem buildIptcApp13Segment_ok (p : List Nat)
    (hseg : p.length + (if p.length % 2 = 1 then 1 else 0) + 28 ≤ 65535) :
    buildIptcApp13Segment p = .ok (app13SegmentSpec p) := by
  have h24 : p.length >>> 24 &&& 255 = p.length / 16777216 % 256 := by
    have h := land255_shift_eq p.length 24
    norm_num at h
    exact h
  have h16 : p.length >>> 16 &&& 255 = p.length / 65536 % 256 := by
    have h := land255_shift_eq p.length 16
    norm_num at h
    exact h
  have h8 : p.length >>> 8 &&& 255 = p.length / 256 % 256 := by
    have h := land255_shift_eq p.length 8
    norm_num at h
    exact h
  have h0 : p.length &&& 255 = p.length % 256 := land255_eq_mod _
  have hpad : (if p.length % 2 = 0 then ([] : List Nat) else [0x00])
      = (if p.length % 2 = 1 then [0x00] else ([] : List Nat)) := by
    rcases Nat.mod_two_eq_zero_or_one p.length with hp | hp <;> simp [hp]
  unfold buildIptcApp13Segment app13SegmentSpec
  rw [if_neg (by rw [app13Block_length p _ _ _ _ _ (sourcePadding_length p)]; omega)]
  simp only [h24, h16, h8, h0, hpad]
  have hblen := app13Block_length p (p.length / 16777216 % 256) (p.length / 65536 % 256)
    (p.length / 256 % 256) (p.length % 256) _ (specPadding_length p)
  have hs8 : ((utf8Bytes "Photoshop 3.0\u0000" ++ utf8Bytes "8BIM" ++ [0x04, 0x04]
        ++ [0x00, 0x00]
        ++ [p.length / 16777216 % 256, p.length / 65536 % 256, p.length / 256 % 256,
            p.length % 256]
        ++ p ++ (if p.length % 2 = 1 then [0x00] else [])).length + 2) >>> 8 &&& 255
      = ((utf8Bytes "Photoshop 3.0\u0000" ++ utf8Bytes "8BIM" ++ [0x04, 0x04] ++ [0x00, 0x00]
        ++ [p.length / 16777216 % 256, p.length / 65536 % 256, p.length / 256 % 256,
            p.length % 256]
        ++ p ++ (if p.length % 2 = 1 then [0x00] else [])).length + 2) / 256 := by
    rw [shiftRight8_eq_div, land255_eq_mod]
    exact Nat.mod_eq_of_lt (by rw [hblen]; omega)
  rw [hs8, land255_eq_mod]

/-- C3: the IPTC APP13 segment built for embedding has exactly the layout
the spec describes — `0xFF 0xED`, a two-byte big-endian segment length
counting its own two bytes, the `Photoshop 3.0\0` header, `8BIM`,
resource id `0x0404`, an empty two-byte Pascal name, a four-byte
big-endian payload length, the payload of datasets 90, 55, 60 and
(conditionally, for a non-empty trimmed caption) 120 — each dataset
being `0x1C 0x02 <id> <2-byte big-endian length>` then the value — plus
one pad byte exactly when the payload length is odd; and construction
fails when the total segment length would exceed 65535.  (The length
hypotheses say each dataset value fits its 2-byte length field and the
whole segment fits a JPEG segment, under which construction succeeds.) -/
theorem c3_iptc_app13_layout (env : TZEnv) (takenAt : Int) (timeZone : String)
    (caption : Option String)
    (hdate : (utf8Bytes (formatIptcDateInTimeZone env takenAt timeZone)).length ≤ 65535)
    (htime : (utf8Bytes (formatIptcTimeInTimeZone env takenAt timeZone)).length ≤ 65535)
    (hcap : (utf8Bytes (jsTrim (caption.getD ""))).length ≤ 65535)
    (htotal : (iptcPayloadSpec env takenAt timeZone caption).length
        + (if (iptcPayloadSpec env takenAt timeZone caption).length % 2 = 1 then 1 else 0)
        + 28 ≤ 65535) :
    (buildIptcPayload env takenAt timeZone caption
        = .ok (iptcPayloadSpec env takenAt timeZone caption)
      ∧ buildIptcApp13Segment (iptcPayloadSpec env takenAt timeZone caption)
        = .ok (app13SegmentSpec (iptcPayloadSpec env takenAt timeZone caption)))
    ∧ ∀ p : List Nat, 65535 < p.length + (if p.length % 2 = 1 then 1 else 0) + 28 →
        ∃ e, buildIptcApp13Segment p = .error e := by
  refine ⟨⟨buildIptcPayload_ok env takenAt timeZone caption hdate htime hcap,
    buildIptcApp13Segment_ok _ htotal⟩, ?_⟩
  intro p hp
  unfold buildIptcApp13Segment
  rw [if_pos (by rw [app13Block_length p _ _ _ _ _ (sourcePadding_length p)]; omega)]
  exact ⟨_, rfl⟩

theorem c3_witness :
    (buildIptcPayload constTZEnv 0 "UTC" (some " hi ")
        = .ok (iptcPayloadSpec constTZEnv 0 "UTC" (some " hi "))
      ∧ buildIptcApp13Segment (iptcPayloadSpec constTZEnv 0 "UTC" (some " hi "))
        = .ok (app13SegmentSpec (iptcPayloadSpec constTZEnv 0 "UTC" (some " hi "))))
    ∧ ∀ p : List Nat, 65535 < p.length + (if p.length % 2 = 1 then 1 else 0) + 28 →
        ∃ e, buildIptcApp13Segment p = .error e :=
  c3_iptc_app13_layout constTZEnv 0 "UTC" (some " hi ")
    (by decide) (by decide) (by decide) (by decide)

/-- The spec's marker-chain walk, as a relation on byte offsets: start at
offset 2 after the SOI marker, step over one `0xFF` fill byte at a time,
step over standalone markers (TEM `0x01`, RST `0xD0`–`0xD7`) with no
length field, and step over any other marker by its 2-byte big-endian
declared length (at least 2, and not past the end of the data).  SOS
(`0xDA`) and EOI (`0xD9`) positions have no successor. -/
inductive JpegReach (d : List Nat) : Nat → Prop where
  | start : 4 ≤ d.length → d.getD 0 0 = 0xFF → d.getD 1 0 = 0xD8 → JpegReach d 2
  | fill (o : Nat) : JpegReach d o → o + 1 < d.length → d.getD o 0 = 0xFF →
      d.getD (o + 1) 0 = 0xFF → JpegReach d (o + 1)
  | standalone (o : Nat) : JpegReach d o → o + 1 < d.length → d.getD o 0 = 0xFF →
      (d.getD (o + 1) 0 = 0x01 ∨ (0xD0 ≤ d.getD (o + 1) 0 ∧ d.getD (o + 1) 0 ≤ 0xD7)) →
      JpegReach d (o + 2)
  | segment (o : Nat) : JpegReach d o → o + 1 < d.length → d.getD o 0 = 0xFF →
      d.getD (o + 1) 0 ≠ 0xFF → d.getD (o + 1) 0 ≠ 0xDA → d.getD (o + 1) 0 ≠ 0xD9 →
      ¬ (d.getD (o + 1) 0 = 0x01 ∨ (0xD0 ≤ d.getD (o + 1) 0 ∧ d.getD (o + 1) 0 ≤ 0xD7)) →
      o + 3 < d.length →
      2 ≤ (d.getD (o + 2) 0) <<< 8 ||| d.getD (o + 3) 0 →
      o + 2 + ((d.getD (o + 2) 0) <<< 8 ||| d.getD (o + 3) 0) ≤ d.length →
      JpegReach d (o + 2 + ((d.getD (o + 2) 0) <<< 8 ||| d.getD (o + 3) 0))

/-- A reachable position holding the first SOS (`0xDA`) or EOI (`0xD9`)
marker of the walk. -/
def JpegFound (d : List Nat) (k : Nat) : Prop :=
  JpegReach d k ∧ k + 1 < d.length ∧ d.getD k 0 = 0xFF
    ∧ (d.getD (k + 1) 0 = 0xDA ∨ d.getD (k + 1) 0 = 0xD9)

theorem walkJpeg_fill_eq (d : List Nat) (o : Nat) (h1 : o + 1 < d.length)
    (hf0 : d.getD o 0 = 0xFF) (hf1 : d.getD (o + 1) 0 = 0xFF) :
    walkJpeg d o = walkJpeg d (o + 1) := by
  have hscan : scanFill d o = scanFill d (o + 1) := by
    rw [scanFill]
    rw [dif_pos ⟨h1, hf1⟩]
  conv_lhs => rw [walkJpeg]
  rw [dif_pos h1, if_neg (not_not_intro hf0), hscan]
  conv_rhs => rw [walkJpeg]
  by_cases h2 : o + 1 + 1 < d.length
  · rw [dif_pos h2, if_neg (not_not_intro hf1)]
  · rw [dif_neg h2]
    have hm : scanFill d (o + 1) = o + 1 := by
      rw [scanFill]
      exact dif_neg (fun hcc => h2 (by omega))
    rw [hm]
    rw [dif_pos (by omega)]

theorem walkJpeg_standalone_eq (d : List Nat) (o : Nat) (h1 : o + 1 < d.length)
    (hf0 : d.getD o 0 = 0xFF)
    (hmk : d.getD (o + 1) 0 = 0x01 ∨ (0xD0 ≤ d.getD (o + 1) 0 ∧ d.getD (o + 1) 0 ≤ 0xD7)) :
    walkJpeg d o = walkJpeg d (o + 2) := by
  have hm : scanFill d o = o := by
    rw [scanFill]
    refine dif_neg fun hcc => ?_
    rcases hmk with h | h <;> omega
  conv_lhs => rw [walkJpeg]
  rw [dif_pos h1, if_neg (not_not_intro hf0), hm]
  rw [dif_neg (by omega)]
  rw [if_neg (by rcases hmk with h | h <;> omega)]
  rw [if_pos hmk]

theorem walkJpeg_segment_eq (d : List Nat) (o : Nat) (h1 : o + 1 < d.length)
    (hf0 : d.getD o 0 = 0xFF) (hnf : d.getD (o + 1) 0 ≠ 0xFF)
    (hda : d.getD (o + 1) 0 ≠ 0xDA) (hd9 : d.getD (o + 1) 0 ≠ 0xD9)
    (hst : ¬ (d.getD (o + 1) 0 = 0x01
      ∨ (0xD0 ≤ d.getD (o + 1) 0 ∧ d.getD (o + 1) 0 ≤ 0xD7)))
    (h3 : o + 3 < d.length)
    (hL2 : 2 ≤ (d.getD (o + 2) 0) <<< 8 ||| d.getD (o + 3) 0)
    (hLe : o + 2 + ((d.getD (o + 2) 0) <<< 8 ||| d.getD (o + 3) 0) ≤ d.length) :
    walkJpeg d o = walkJpeg d (o + 2 + ((d.getD (o + 2) 0) <<< 8 ||| d.getD (o + 3) 0)) := by
  have hm : scanFill d o = o := by
    rw [scanFill]
    exact dif_neg fun hcc => hnf hcc.2
  conv_lhs => rw [walkJpeg]
  rw [dif_pos h1, if_neg (not_not_intro hf0), hm]
  rw [dif_neg (by omega)]
  rw [if_neg (by rintro (h | h) <;> omega)]
  rw [if_neg hst]
  rw [dif_neg (by omega)]
  rw [if_neg (by omega)]
  rw [dif_neg (by omega)]

theorem reach_walk (d : List Nat) : ∀ o, JpegReach d o →
    findJpegMetadataInsertOffset d = walkJpeg d o := by
  intro o hr
  induction hr with
  | start h1 h2 h3 =>
    unfold findJpegMetadataInsertOffset
    rw [if_neg (by push_neg; exact ⟨by omega, h2, h3⟩)]
  | fill o hro h1 h2 h3 ih => rw [ih, walkJpeg_fill_eq d o h1 h2 h3]
  | standalone o hro h1 h2 h3 ih => rw [ih, walkJpeg_standalone_eq d o h1 h2 h3]
  | segment o hro h1 h2 h3 h4 h5 h6 h7 h8 h9 ih =>
    rw [ih, walkJpeg_segment_eq d o h1 h2 h3 h4 h5 h6 h7 h8 h9]

theorem reach_scanFill (d : List Nat) (o : Nat) (hr : JpegReach d o)
    (hff : d.getD o 0 = 0xFF) :
    JpegReach d (scanFill d o) ∧ d.getD (scanFill d o) 0 = 0xFF
      ∧ (scanFill d o + 1 < d.length → d.getD (scanFill d o + 1) 0 ≠ 0xFF) := by
  rw [scanFill]
  split
  · next h => exact reach_scanFill d (o + 1) (JpegReach.fill o hr h.1 hff h.2) h.2
  · next h =>
    refine ⟨hr, hff, fun hlt hne => ?_⟩
    exact h ⟨hlt, hne⟩
termination_by d.length - o
decreasing_by
  omega

theorem walkJpeg_ok_found (d : List Nat) (o : Nat) (hr : JpegReach d o) :
    ∀ k, walkJpeg d o = .ok k → JpegFound d k := by
  intro k h
  rw [walkJpeg] at h
  by_cases h1 : o + 1 < d.length
  · rw [dif_pos h1] at h
    by_cases hff : d.getD o 0 ≠ 0xFF
    · rw [if_pos hff] at h
      simp at h
    · rw [if_neg hff] at h
      have hffe : d.getD o 0 = 0xFF := not_not.mp hff
      obtain ⟨hrm, hmf, hstop⟩ := reach_scanFill d o hr hffe
      by_cases h2 : d.length ≤ scanFill d o + 1
      · rw [dif_pos h2] at h
        simp at h
      · rw [dif_neg h2] at h
        by_cases h3 : d.getD (scanFill d o + 1) 0 = 0xDA
            ∨ d.getD (scanFill d o + 1) 0 = 0xD9
        · rw [if_pos h3] at h
          injection h with hk
          subst hk
          exact ⟨hrm, by omega, hmf, h3⟩
        · rw [if_neg h3] at h
          by_cases h4 : d.getD (scanFill d o + 1) 0 = 0x01
              ∨ (0xD0 ≤ d.getD (scanFill d o + 1) 0 ∧ d.getD (scanFill d o + 1) 0 ≤ 0xD7)
          · rw [if_pos h4] at h
            exact walkJpeg_ok_found d (scanFill d o + 2)
              (JpegReach.standalone _ hrm (by omega) hmf h4) k h
          · rw [if_neg h4] at h
            by_cases h5 : d.length ≤ scanFill d o + 3
            · rw [dif_pos h5] at h
              simp at h
            · rw [dif_neg h5] at h
              by_cases h6 : (d.getD (scanFill d o + 2) 0) <<< 8
                  ||| d.getD (scanFill d o + 3) 0 < 2
              · rw [if_pos h6] at h
                simp at h
              · rw [if_neg h6] at h
                by_cases h7 : d.length < scanFill d o + 2
                    + ((d.getD (scanFill d o + 2) 0) <<< 8 ||| d.getD (scanFill d o + 3) 0)
                · rw [dif_pos h7] at h
                  simp at h
                · rw [dif_neg h7] at h
                  exact walkJpeg_ok_found d
                    (scanFill d o + 2
                      + ((d.getD (scanFill d o + 2) 0) <<< 8 ||| d.getD (scanFill d o + 3) 0))
                    (JpegReach.segment _ hrm (by omega) hmf
                      (hstop (by omega)) (fun hc => h3 (Or.inl hc))
                      (fun hc => h3 (Or.inr hc)) h4 (by omega) (by omega) (by omega)) k h
  · rw [dif_neg h1] at h
    simp at h
termination_by d.length - o
decreasing_by
  · have := scanFill_ge d o
    omega
  · have := scanFill_ge d o
    omega

theorem found_walk_ok (d : List Nat) (k : Nat) (hf : JpegFound d k) :
    findJpegMetadataInsertOffset d = .ok k := by
  obtain ⟨hr, hlen, hff, hmk⟩ := hf
  rw [reach_walk d k hr]
  rw [walkJpeg]
  have hm : scanFill d k = k := by
    rw [scanFill]
    refine dif_neg fun hcc => ?_
    rcases hmk with h | h <;> omega
  rw [dif_pos hlen, if_neg (not_not_intro hff), hm]
  rw [dif_neg (by omega)]
  rw [if_pos hmk]

/-- C4: `findJpegMetadataInsertOffset` walks the marker chain from byte
offset 2 of an SOI-headed stream — skipping `0xFF` fill bytes, treating
TEM (`0x01`) and RST (`0xD0`–`0xD7`) markers as having no length field,
and skipping a 2-byte big-endian length for every other marker — and
returns offset `k` exactly when the walk reaches a Start-of-Scan
(`0xDA`) or End-of-Image (`0xD9`) marker at `k`; and it throws instead of
returning an offset when the input does not begin with SOI, when a
non-`0xFF` byte sits where a marker is expected, when a segment declares
a length below 2, and when a declared segment length runs past the end of
the data. -/
theorem c4_jpeg_insert_offset_walk (d : List Nat) :
    (∀ k, findJpegMetadataInsertOffset d = .ok k ↔ JpegFound d k)
    ∧ ((d.getD 0 0 ≠ 0xFF ∨ d.getD 1 0 ≠ 0xD8) →
        ∃ e, findJpegMetadataInsertOffset d = .error e)
    ∧ (∀ o, JpegReach d o → o + 1 < d.length → d.getD o 0 ≠ 0xFF →
        ∃ e, findJpegMetadataInsertOffset d = .error e)
    ∧ (∀ o, JpegReach d o → o + 1 < d.length → d.getD o 0 = 0xFF →
        d.getD (o + 1) 0 ≠ 0xFF → d.getD (o + 1) 0 ≠ 0xDA → d.getD (o + 1) 0 ≠ 0xD9 →
        ¬ (d.getD (o + 1) 0 = 0x01
          ∨ (0xD0 ≤ d.getD (o + 1) 0 ∧ d.getD (o + 1) 0 ≤ 0xD7)) →
        o + 3 < d.length →
        (d.getD (o + 2) 0) <<< 8 ||| d.getD (o + 3) 0 < 2 →
        ∃ e, findJpegMetadataInsertOffset d = .error e)
    ∧ (∀ o, JpegReach d o → o + 1 < d.length → d.getD o 0 = 0xFF →
        d.getD (o + 1) 0 ≠ 0xFF → d.getD (o + 1) 0 ≠ 0xDA → d.getD (o + 1) 0 ≠ 0xD9 →
        ¬ (d.getD (o + 1) 0 = 0x01
          ∨ (0xD0 ≤ d.getD (o + 1) 0 ∧ d.getD (o + 1) 0 ≤ 0xD7)) →
        o + 3 < d.length →
        2 ≤ (d.getD (o + 2) 0) <<< 8 ||| d.getD (o + 3) 0 →
        d.length < o + 2 + ((d.getD (o + 2) 0) <<< 8 ||| d.getD (o + 3) 0) →
        ∃ e, findJpegMetadataInsertOffset d = .error e) := by
  refine ⟨?_, ?_, ?_, ?_, ?_⟩
  · intro k
    constructor
    · intro h
      unfold findJpegMetadataInsertOffset at h
      by_cases hg : d.length < 4 ∨ d.getD 0 0 ≠ 0xFF ∨ d.getD 1 0 ≠ 0xD8
      · rw [if_pos hg] at h
        simp at h
      · rw [if_neg hg] at h
        push_neg at hg
        exact walkJpeg_ok_found d 2 (JpegReach.start (by omega) hg.2.1 hg.2.2) k h
    · exact found_walk_ok d k
  · intro hg
    unfold findJpegMetadataInsertOffset
    rw [if_pos (by tauto)]
    exact ⟨_, rfl⟩
  · intro o hr h1 hff
    rw [reach_walk d o hr, walkJpeg, dif_pos h1, if_pos hff]
    exact ⟨_, rfl⟩
  · intro o hr h1 hff hnf hda hd9 hst h3 hL
    have hm : scanFill d o = o := by
      rw [scanFill]
      exact dif_neg fun hcc => hnf hcc.2
    rw [reach_walk d o hr, walkJpeg, dif_pos h1, if_neg (not_not_intro hff), hm]
    rw [dif_neg (by omega)]
    rw [if_neg (by rintro (h | h) <;> omega)]
    rw [if_neg hst]
    rw [dif_neg (by omega)]
    rw [if_pos hL]
    exact ⟨_, rfl⟩
  · intro o hr h1 hff hnf hda hd9 hst h3 hL2 hpast
    have hm : scanFill d o = o := by
      rw [scanFill]
      exact dif_neg fun hcc => hnf hcc.2
    rw [reach_walk d o hr, walkJpeg, dif_pos h1, if_neg (not_not_intro hff), hm]
    rw [dif_neg (by omega)]
    rw [if_neg (by rintro (h | h) <;> omega)]
    rw [if_neg hst]
    rw [dif_neg (by omega)]
    rw [if_neg (by omega)]
    rw [dif_pos hpast]
    exact ⟨_, rfl⟩

theorem c4_witness :
    findJpegMetadataInsertOffset [0xFF, 0xD8, 0xFF, 0xD9] = .ok 2 :=
  ((c4_jpeg_insert_offset_walk [0xFF, 0xD8, 0xFF, 0xD9]).1 2).mpr
    ⟨JpegReach.start (by decide) (by decide) (by decide), by decide, by decide, by decide⟩

theorem shortestCandidate_spec : ∀ (l : List String), l ≠ [] →
    ∃ c, shortestCandidate l = some c ∧ c ∈ l ∧ ∀ x ∈ l, c.length ≤ x.length := by
  intro l
  induction l with
  | nil => intro h; exact absurd rfl h
  | cons x xs ih =>
    intro _
    by_cases hxs : xs = []
    · subst hxs
      refine ⟨x, rfl, List.mem_singleton.mpr rfl, ?_⟩
      intro z hz
      rw [List.mem_singleton.mp hz]
    · obtain ⟨c, hc1, hc2, hc3⟩ := ih hxs
      simp only [shortestCandidate, hc1]
      by_cases hlen : x.length ≤ c.length
      · refine ⟨x, by rw [if_pos hlen], List.mem_cons_self _ _, ?_⟩
        intro z hz
        rcases List.mem_cons.mp hz with heq | hz2
        · rw [heq]
        · exact Nat.le_trans hlen (hc3 z hz2)
      · refine ⟨c, by rw [if_neg hlen], List.mem_cons_of_mem _ hc2, ?_⟩
        intro z hz
        rcases List.mem_cons.mp hz with heq | hz2
        · rw [heq]; omega
        · exact hc3 z hz2

theorem find?_first_qualifying (p : String → Bool) :
    ∀ (l₁ : List String) (c : String) (l₂ : List String),
    (∀ x ∈ l₁, p x = false) → p c = true → (l₁ ++ c :: l₂).find? p = some c := by
  intro l₁
  induction l₁ with
  | nil =>
    intro c l₂ _ hc
    rw [List.nil_append]
    exact List.find?_cons_of_pos _ hc
  | cons x xs ih =>
    intro c l₂ hneg hc
    rw [List.cons_append,
      List.find?_cons_of_neg _ (by simp [hneg x (List.mem_cons_self x xs)])]
    exact ih c l₂ (fun z hz => hneg z (List.mem_cons_of_mem x hz)) hc

/-- C5 (amended): over an archive's entry listing, `findExportRootPrefix`
returns the prefix of the first (in listing order) `posts.json` candidate
that has a sibling `Photos/` directory under the same prefix; if no
candidate qualifies but at least one `posts.json` exists and some
`photos/` directory exists anywhere, it returns the prefix of the
shortest candidate; and it returns `null` exactly when no `posts.json`
exists or (no candidate qualifies and no photos-like directory exists
anywhere).  (The frozen claim said the strict phase picks the shortest
qualifying candidate; the code scans candidates in listing order and
returns the first — see the counterexample.) -/
theorem c5_amended_export_root (entries : List ZipEntry) :
    (∀ (l₁ : List String) (c : String) (l₂ : List String),
      postsCandidates entries = l₁ ++ c :: l₂ →
      (∀ x ∈ l₁, hasSiblingPhotos (allPathsOf entries) x = false) →
      hasSiblingPhotos (allPathsOf entries) c = true →
      findExportRoot entries = some (candidateRoot c))
    ∧ ((∀ c ∈ postsCandidates entries, hasSiblingPhotos (allPathsOf entries) c = false) →
        postsCandidates entries ≠ [] →
        (∃ v ∈ allPathsOf entries, pathHasPhotosDir v = true) →
        ∃ c ∈ postsCandidates entries, findExportRoot entries = some (candidateRoot c)
          ∧ ∀ x ∈ postsCandidates entries, c.length ≤ x.length)
    ∧ (findExportRoot entries = none ↔
        postsCandidates entries = []
        ∨ ((∀ c ∈ postsCandidates entries, hasSiblingPhotos (allPathsOf entries) c = false)
          ∧ ∀ v ∈ allPathsOf entries, pathHasPhotosDir v = false)) := by
  refine ⟨?_, ?_, ?_⟩
  · intro l₁ c l₂ hsplit hneg hc
    have hfind : (postsCandidates entries).find?
        (fun x => hasSiblingPhotos (allPathsOf entries) x) = some c := by
      rw [hsplit]
      exact find?_first_qualifying _ l₁ c l₂ hneg hc
    simp [findExportRoot, hfind]
  · intro hall hne hphotos
    have hfind : (postsCandidates entries).find?
        (fun x => hasSiblingPhotos (allPathsOf entries) x) = none :=
      List.find?_eq_none.mpr fun x hx => by simp [hall x hx]
    obtain ⟨c, hc1, hc2, hc3⟩ := shortestCandidate_spec (postsCandidates entries) hne
    obtain ⟨v, hv, hvp⟩ := hphotos
    have hany : (allPathsOf entries).any pathHasPhotosDir = true :=
      List.any_eq_true.mpr ⟨v, hv, hvp⟩
    have hemp : (postsCandidates entries).isEmpty = false := by
      rcases hpc : postsCandidates entries with _ | ⟨a, as⟩
      · exact absurd hpc hne
      · rfl
    refine ⟨c, hc2, ?_, hc3⟩
    simp [findExportRoot, hfind, hany, hemp, hc1]
  · constructor
    · intro h
      by_cases hne : postsCandidates entries = []
      · exact Or.inl hne
      · cases hfind : (postsCandidates entries).find?
            (fun x => hasSiblingPhotos (allPathsOf entries) x) with
        | some c =>
          exfalso
          simp [findExportRoot, hfind] at h
        | none =>
          have hq : ∀ c ∈ postsCandidates entries,
              hasSiblingPhotos (allPathsOf entries) c = false := fun c hc => by
            simpa using List.find?_eq_none.mp hfind c hc
          refine Or.inr ⟨hq, ?_⟩
          by_cases hany : (allPathsOf entries).any pathHasPhotosDir = true
          · exfalso
            obtain ⟨c, hc1, _, _⟩ := shortestCandidate_spec (postsCandidates entries) hne
            have hemp : (postsCandidates entries).isEmpty = false := by
              rcases hpc : postsCandidates entries with _ | ⟨a, as⟩
              · exact absurd hpc hne
              · rfl
            simp [findExportRoot, hfind, hany, hemp, hc1] at h
          · intro v hv
            by_contra hvp
            exact hany (List.any_eq_true.mpr ⟨v, hv, by simpa using hvp⟩)
    · intro h
      rcases h with hnil | ⟨hall, hnone⟩
      · simp [findExportRoot, hnil]
      · have hfind : (postsCandidates entries).find?
            (fun x => hasSiblingPhotos (allPathsOf entries) x) = none :=
          List.find?_eq_none.mpr fun x hx => by simp [hall x hx]
        have hany : (allPathsOf entries).any pathHasPhotosDir = false := by
          rcases hq : (allPathsOf entries).any pathHasPhotosDir with _ | _
          · rfl
          · exfalso
            obtain ⟨v, hv, hvp⟩ := List.any_eq_true.mp hq
            rw [hnone v hv] at hvp
            exact absurd hvp (by simp)
        simp [findExportRoot, hfind, hany]

/-- A listing where a longer `posts.json` candidate with a sibling
`Photos/` directory is listed before a shorter one that also qualifies. -/
def nestedFirstEntries : List ZipEntry :=
  [⟨"a/b/posts.json", false⟩, ⟨"a/b/Photos/x.jpg", false⟩,
   ⟨"posts.json", false⟩, ⟨"Photos/y.jpg", false⟩]

/-- Counterexample to C5 as frozen: `posts.json` (prefix `""`) is the
shortest candidate with a sibling `Photos/` directory, yet the function
returns the prefix `a/b/` of the first-listed qualifying candidate. -/
theorem c5_counterexample :
    findExportRoot nestedFirstEntries = some "a/b/"
    ∧ hasSiblingPhotos (allPathsOf nestedFirstEntries) "posts.json" = true
    ∧ "posts.json" ∈ postsCandidates nestedFirstEntries
    ∧ ("posts.json" : String).length < ("a/b/posts.json" : String).length
    ∧ candidateRoot "posts.json" = ""
    ∧ ("a/b/" : String) ≠ "" := by
  refine ⟨by decide, by decide, ?_, by decide, by decide, by decide⟩
  rw [show postsCandidates nestedFirstEntries = ["a/b/posts.json", "posts.json"] from by decide]
  simp

theorem c5_witness :
    findExportRoot [ZipEntry.mk "export/data/posts.json" false,
      ZipEntry.mk "export/data/Photos/post/a.webp" false] = some "export/data/" :=
  (c5_amended_export_root _).1 [] "export/data/posts.json" [] (by decide)
    (fun x hx => absurd hx (List.not_mem_nil x)) (by decide)

end BeReal
